import Mathlib

/-!
Verification development for the two Frappe report scripts of the
`vcipl_credit_debit_note_app` repository:

* `most_selling_report___stock_report.py` (report 1, namespace `MostSelling`)
* `sales_analaytic___custom_report.py` (report 2, namespace `SalesAnalytic`)

The Python code is shallowly embedded: dates are a `Date` structure with the
calendar arithmetic of `dateutil.relativedelta`, Python dicts holding report
rows become ordered association lists (`List (String × _)`) with
insertion-order preserving update, numeric measures are exact integers
(`Int`; the scripts only add and compare SQL sums, and every identity
proved here is a rearrangement of finite sums carried out identically on
both sides, independent of the numeric carrier), and the SQL text is
assembled by the same string concatenation as in the source.
-/

set_option maxHeartbeats 1000000
set_option maxRecDepth 100000

/-! ## Calendar dates

Model of `datetime.date` together with the pieces of `dateutil.relativedelta`
used by the source: month addition (`d + relativedelta(months=n)`, which adds
to the month index and clamps the day-of-month to the target month's length)
and one-day subtraction (`- relativedelta(days=1)`).
-/

structure Date where
  year : Nat
  month : Nat
  day : Nat
  deriving DecidableEq, Repr

/-- Gregorian leap-year rule (as used by `datetime`). -/
def isLeap (y : Nat) : Bool :=
  (y % 4 == 0 && y % 100 != 0) || y % 400 == 0

/-- Number of days of month `m` (1-12) of year `y`. -/
def daysInMonth (y m : Nat) : Nat :=
  if m = 2 then (if isLeap y then 29 else 28)
  else if m = 4 ∨ m = 6 ∨ m = 9 ∨ m = 11 then 30
  else 31

/-- A structurally well-formed calendar date. -/
def Date.Valid (d : Date) : Prop :=
  1 ≤ d.month ∧ d.month ≤ 12 ∧ 1 ≤ d.day ∧ d.day ≤ daysInMonth d.year d.month

instance (d : Date) : Decidable d.Valid :=
  inferInstanceAs (Decidable (_ ∧ _ ∧ _ ∧ _))

/-- Calendar order = lexicographic order on (year, month, day). -/
def Date.le (a b : Date) : Prop :=
  a.year < b.year ∨ (a.year = b.year ∧
    (a.month < b.month ∨ (a.month = b.month ∧ a.day ≤ b.day)))

def Date.lt (a b : Date) : Prop :=
  a.year < b.year ∨ (a.year = b.year ∧
    (a.month < b.month ∨ (a.month = b.month ∧ a.day < b.day)))

instance : LE Date := ⟨Date.le⟩
instance : LT Date := ⟨Date.lt⟩

instance (a b : Date) : Decidable (a ≤ b) :=
  inferInstanceAs (Decidable (_ ∨ _))

instance (a b : Date) : Decidable (a < b) :=
  inferInstanceAs (Decidable (_ ∨ _))

/-- Months elapsed since year 0, month 1; linearises the (year, month) part. -/
def monthIndex (d : Date) : Nat := d.year * 12 + (d.month - 1)

/-- `d + relativedelta(months=n)`: advance the month index, clamp the day. -/
def add_months (d : Date) (n : Nat) : Date :=
  let t := d.year * 12 + (d.month - 1) + n
  let y := t / 12
  let m := t % 12 + 1
  { year := y, month := m, day := min d.day (daysInMonth y m) }

/-- `d - relativedelta(days=1)`: the previous calendar day. -/
def Date.pred (d : Date) : Date :=
  if 1 < d.day then { d with day := d.day - 1 }
  else if 1 < d.month then
    { year := d.year, month := d.month - 1, day := daysInMonth d.year (d.month - 1) }
  else { year := d.year - 1, month := 12, day := 31 }

/-- `d + relativedelta(days=1)`: the next calendar day. -/
def Date.next (d : Date) : Date :=
  if d.day < daysInMonth d.year d.month then { d with day := d.day + 1 }
  else if d.month < 12 then { year := d.year, month := d.month + 1, day := 1 }
  else { year := d.year + 1, month := 1, day := 1 }

/-! ## Decimal rendering

Models Python's decimal formatting of non-negative integers (used for
`strftime("%Y")`, f-string interpolation of indices and of the resolved
`LIMIT`).  ASCII digits only, which is what CPython produces.
-/

/-- The decimal digit characters. -/
def digitChar (k : Nat) : Char :=
  match k with
  | 0 => '0' | 1 => '1' | 2 => '2' | 3 => '3' | 4 => '4'
  | 5 => '5' | 6 => '6' | 7 => '7' | 8 => '8' | 9 => '9'
  | _ => '*'

/-- Numeric value of a decimal digit character (inverse of `digitChar`). -/
def digitVal (c : Char) : Nat :=
  match c with
  | '0' => 0 | '1' => 1 | '2' => 2 | '3' => 3 | '4' => 4
  | '5' => 5 | '6' => 6 | '7' => 7 | '8' => 8 | '9' => 9
  | _ => 10

/-- Little-endian digit list of `n` (empty for 0).  Structural recursion on
`fuel` so that the kernel can evaluate it; any `fuel ≥ n` gives the limit
value because `n / 10 < n` for `n ≠ 0`. -/
def natDigitsAux : Nat → Nat → List Char
  | 0, _ => []
  | fuel + 1, n =>
    if n = 0 then [] else digitChar (n % 10) :: natDigitsAux fuel (n / 10)

/-- Big-endian decimal digit list of `n`, `['0']` for 0. -/
def natDigits (n : Nat) : List Char :=
  if n = 0 then ['0'] else (natDigitsAux n n).reverse

/-- Decimal string of a natural number, exactly as Python's `str`. -/
def natStr (n : Nat) : String := String.mk (natDigits n)

/-- Decimal string of an integer, exactly as Python's `str`. -/
def intStr (n : Int) : String :=
  if n < 0 then String.mk ('-' :: natDigits n.natAbs) else natStr n.natAbs

/-- Little-endian value of a digit list; inverts `natDigitsAux`. -/
def digitsVal : List Char → Nat
  | [] => 0
  | c :: cs => digitVal c + 10 * digitsVal cs

/-- Is `pat` a prefix of the second list? (Boolean, executable.) -/
def charsLeadWith : List Char → List Char → Bool
  | [], _ => true
  | _ :: _, [] => false
  | a :: as, b :: bs => a == b && charsLeadWith as bs

/-- Does the second list contain `needle` as a contiguous sublist? -/
def charsContain (needle : List Char) : List Char → Bool
  | [] => needle.isEmpty
  | c :: cs => charsLeadWith needle (c :: cs) || charsContain needle cs

/-- Substring test on strings (used to state that a query omits a clause). -/
def strContains (hay needle : String) : Bool :=
  charsContain needle.data hay.data

/-! ## strftime pieces: `%b`, `%b %Y`, `%b_%Y` (C locale) -/

/-- Three-letter English month abbreviation (`strftime("%b")`, C locale). -/
def monthAbbrev (m : Nat) : String :=
  match m with
  | 1 => "Jan" | 2 => "Feb" | 3 => "Mar" | 4 => "Apr"
  | 5 => "May" | 6 => "Jun" | 7 => "Jul" | 8 => "Aug"
  | 9 => "Sep" | 10 => "Oct" | 11 => "Nov" | 12 => "Dec"
  | _ => ""

/-- `start.strftime("%b_%Y")`, e.g. `"Apr_2025"`. -/
def dateKey (d : Date) : String := monthAbbrev d.month ++ "_" ++ natStr d.year

/-- `start.strftime("%b %Y")`, e.g. `"Apr 2025"`. -/
def dateLabel (d : Date) : String := monthAbbrev d.month ++ " " ++ natStr d.year

/-! ## Python string truthiness helpers -/

/-- Python `value or default` for an optional string: `None` and the empty
string are falsy and replaced by the default. -/
def strOrDefault (v : Option String) (dflt : String) : String :=
  match v with
  | none => dflt
  | some s => if s = "" then dflt else s

/-- Python truthiness of an optional string value (`if filters.get(...)`):
`None` and `""` are falsy. -/
def truthy (v : Option String) : Bool :=
  match v with
  | none => false
  | some s => s ≠ ""

/-! ## Insertion-ordered dictionaries

Python dicts preserve insertion order; assignment to an existing key keeps
its position and replaces the value.  Report rows and the nested grouping
structure are therefore modelled as association lists with these helpers.
-/

/-- Python-dict assignment `d[k] = v` on an insertion-ordered association
list: replace in place if the key exists, append otherwise. -/
def upsert {α : Type} (k : String) (v : α) : List (String × α) → List (String × α)
  | [] => [(k, v)]
  | (k', v') :: rest =>
    if k' = k then (k', v) :: rest else (k', v') :: upsert k v rest

/-- Python `d.setdefault(k, dflt)` followed by in-place mutation of `d[k]`:
apply `g` to the existing value, or to the default when the key is new. -/
def upsertWith {α : Type} (k : String) (g : α → α) (dflt : α) :
    List (String × α) → List (String × α)
  | [] => [(k, g dflt)]
  | (k', v') :: rest =>
    if k' = k then (k', g v') :: rest else (k', v') :: upsertWith k g dflt rest

/-- Python `row.get(k, dflt)` on an association-list dict of numbers. -/
def rowGet (l : List (String × Int)) (k : String) (dflt : Int) : Int :=
  (l.lookup k).getD dflt

namespace SalesAnalytic

/-! ## Report 2: `get_period_date_ranges` -/

/-- One element of the `periods` list returned by `get_period_date_ranges`. -/
structure Bucket where
  key : String
  label : String
  from_date : Date
  to_date : Date
  deriving DecidableEq, Repr

/-- The `increments` dict of `get_period_date_ranges`. -/
def increments : List (String × Nat) :=
  [("Monthly", 1), ("Quarterly", 3), ("Half Yearly", 6), ("Yearly", 12)]

/-- `increments.get(period, 1)`. -/
def periodStep (period : String) : Nat := (increments.lookup period).getD 1

/-- The `while start <= to_date` loop of `get_period_date_ranges`.
`fuel` bounds the number of iterations; `get_period_date_ranges` passes a
bound that always suffices (each iteration advances `start` by at least one
month, so at most `monthIndex to_date + 1` iterations run). -/
def bucketsGo (step : Nat) (to_date : Date) : Nat → Date → List Bucket
  | 0, _ => []
  | fuel + 1, start =>
    if start ≤ to_date then
      let nxt := add_months start step
      let e0 := nxt.pred
      let e := if to_date < e0 then to_date else e0
      { key := dateKey start, label := dateLabel start,
        from_date := start, to_date := e } :: bucketsGo step to_date fuel nxt
    else []

/-- `get_period_date_ranges(period, from_date, to_date)`. -/
def get_period_date_ranges (period : String) (from_date to_date : Date) :
    List Bucket :=
  bucketsGo (periodStep period) to_date (to_date.year * 12 + to_date.month + 2)
    from_date

/-- Relations between two consecutive buckets: the next bucket starts one
month-step after this one, the (non-last) bucket ends exactly one day before
that, the next bucket starts the day after this one ends, and the ranges do
not touch. -/
def BucketRel (step : Nat) (b b' : Bucket) : Prop :=
  b'.from_date = add_months b.from_date step ∧
  b.to_date = (add_months b.from_date step).pred ∧
  b'.from_date = b.to_date.next ∧
  b.to_date < b'.from_date

/-! ## Report 2: filters and validation -/

/-- The filter dict of report 2.  `from_date`/`to_date` are modelled as
already-parsed dates (`frappe.utils.getdate` is the identity in this model);
`none` is an absent key. -/
structure Filters where
  from_date : Option Date := none
  to_date : Option Date := none
  period : Option String := none
  value_quantity : Option String := none
  company : Option String := none
  customer : Option String := none
  customer_group : Option String := none
  custom_sub_group : Option String := none
  territory : Option String := none
  item_group : Option String := none
  item : Option String := none
  brand : Option String := none
  deriving DecidableEq, Repr

/-- The period enumeration checked by `validate_filters`. -/
def allowed_periods : List String :=
  ["Monthly", "Quarterly", "Half Yearly", "Yearly"]

/-- `validate_filters(filters)`; `frappe.throw` becomes `Except.error`. -/
def validate_filters (f : Filters) : Except String Unit :=
  match f.from_date, f.to_date with
  | some fd, some td =>
    if td < fd then Except.error "To Date must be greater than From Date"
    else
      match f.period with
      | some p =>
        if p ∈ allowed_periods then Except.ok ()
        else Except.error
          "Period must be one of Monthly, Quarterly, Half Yearly or Yearly"
      | none => Except.ok ()
  | _, _ => Except.error "Please select From Date and To Date"

/-! ## Report 2: `get_aggregated_rows` query construction -/

/-- A value bound as a named query parameter (strings from filters, dates
from the period buckets). -/
inductive PVal where
  | str (s : String)
  | date (d : Date)
  deriving DecidableEq, Repr

/-- One `if filters.get(...):  conditions.append(...)` block. -/
def optCond (present : Bool) (s : String) : List String :=
  if present then [s] else []

/-- One `params[name] = filters[name]` assignment guarded by truthiness. -/
def optParam (present : Bool) (k : String) (v : Option String) :
    List (String × PVal) :=
  if present then [(k, PVal.str (v.getD ""))] else []

/-- The parts of the aggregation query assembled by `get_aggregated_rows`
before it is executed. -/
structure Query2 where
  value_quantity : String
  value_expr : String
  period_sql_parts : List String
  conditions : List String
  params : List (String × PVal)
  where_clause : String
  sql : String
  deriving Repr

def sql2A : String :=
  "\n        SELECT\n            c.customer_group AS customer_group,\n" ++
  "            c.custom_sub_group AS custom_sub_group,\n            "

def sql2B : String :=
  ",\n            -- total across periods (also derived client-side if you prefer)\n" ++
  "            SUM("

def sql2C : String :=
  ") AS total\n        FROM\n            `tabSales Invoice Item` si_item\n" ++
  "            JOIN `tabSales Invoice` si ON si.name = si_item.parent\n" ++
  "            JOIN `tabCustomer` c ON si.customer = c.name\n" ++
  "            LEFT JOIN `tabItem` i ON si_item.item_code = i.name\n" ++
  "        WHERE\n            "

def sql2D : String :=
  "\n        GROUP BY\n            c.customer_group, c.custom_sub_group\n" ++
  "        ORDER BY\n            c.customer_group, c.custom_sub_group\n    "

/-- The query-building part of `get_aggregated_rows(filters, period_list)`:
everything up to the `frappe.db.sql` call.  Reading `filters["from_date"]`
or `filters["to_date"]` with the key absent is a Python `KeyError`, modelled
as `Except.error`; `execute` only calls this after validation, which rules
that out. -/
def get_aggregated_query (f : Filters) (period_list : List Bucket) :
    Except String Query2 :=
  match f.from_date, f.to_date with
  | some fd, some td =>
    let value_quantity := f.value_quantity.getD "Value"
    let value_expr :=
      if value_quantity = "Value" then "si_item.amount" else "si_item.qty"
    let period_sql_parts := period_list.enum.map (fun ip =>
      "SUM(CASE WHEN si.posting_date BETWEEN %(p_from_" ++ natStr ip.1 ++
      ")s AND %(p_to_" ++ natStr ip.1 ++ ")s THEN " ++ value_expr ++
      " ELSE 0 END) AS `" ++ ip.2.key ++ "`")
    let period_sql := String.intercalate ",\n            " period_sql_parts
    let conditions :=
      ["si.docstatus = 1",
       "si.posting_date BETWEEN %(from_date)s AND %(to_date)s"]
      ++ optCond (truthy f.company) "si.company = %(company)s"
      ++ optCond (truthy f.customer) "si.customer = %(customer)s"
      ++ optCond (truthy f.customer_group) "c.customer_group = %(customer_group)s"
      ++ optCond (truthy f.custom_sub_group) "c.custom_sub_group = %(custom_sub_group)s"
      ++ optCond (truthy f.territory) "c.territory = %(territory)s"
      ++ optCond (truthy f.item_group) "i.item_group = %(item_group)s"
      ++ optCond (truthy f.item) "si_item.item_code = %(item)s"
      ++ optCond (truthy f.brand) "i.brand = %(brand)s"
    let params :=
      [("from_date", PVal.date fd), ("to_date", PVal.date td)]
      ++ optParam (truthy f.company) "company" f.company
      ++ optParam (truthy f.customer) "customer" f.customer
      ++ optParam (truthy f.customer_group) "customer_group" f.customer_group
      ++ optParam (truthy f.custom_sub_group) "custom_sub_group" f.custom_sub_group
      ++ optParam (truthy f.territory) "territory" f.territory
      ++ optParam (truthy f.item_group) "item_group" f.item_group
      ++ optParam (truthy f.item) "item" f.item
      ++ optParam (truthy f.brand) "brand" f.brand
      ++ period_list.enum.flatMap (fun ip =>
           [("p_from_" ++ natStr ip.1, PVal.date ip.2.from_date),
            ("p_to_" ++ natStr ip.1, PVal.date ip.2.to_date)])
    let where_clause := String.intercalate " AND " conditions
    Except.ok
      { value_quantity := value_quantity
        value_expr := value_expr
        period_sql_parts := period_sql_parts
        conditions := conditions
        params := params
        where_clause := where_clause
        sql := sql2A ++ period_sql ++ sql2B ++ value_expr ++ sql2C ++
               where_clause ++ sql2D }
  | _, _ => Except.error "KeyError: from_date/to_date"

/-! ## Report 2: row shaping -/

/-- One aggregate row returned by the SQL query: the grouping labels (SQL
`NULL` is `none`), the per-period-key sums and the overall total.  The
numeric fields are total after the `None -> 0.0` normalisation loop of
`get_aggregated_rows`, which is the identity in this typed model. -/
structure AggRow where
  customer_group : Option String
  custom_sub_group : Option String
  vals : List (String × Int)
  total : Int
  deriving DecidableEq, Repr

/-- The `{"periods": ..., "total": ...}` entry stored per sub-group. -/
structure SgData where
  periods : List (String × Int)
  total : Int
  deriving DecidableEq, Repr

/-- A display row of the final report table. -/
structure DisplayRow where
  customer_group : String
  custom_sub_group : String
  vals : List (String × Int)
  total : Int
  indent : Nat
  deriving DecidableEq, Repr

/-- `{p["key"]: r.get(p["key"], 0.0) for p in period_list}`. -/
def mkPeriods (r : AggRow) (period_list : List Bucket) : List (String × Int) :=
  period_list.foldl (fun acc p => upsert p.key (rowGet r.vals p.key 0) acc) []

/-- The nested `{customer_group: {subgroup: {"periods": ..., "total": ...}}}`
dict built by the first loop of `build_hierarchical_rows`. -/
def buildNested (agg_rows : List AggRow) (period_list : List Bucket) :
    List (String × List (String × SgData)) :=
  agg_rows.foldl
    (fun nested r =>
      let cg := strOrDefault r.customer_group "Undefined"
      let sg := strOrDefault r.custom_sub_group "(No Sub Group)"
      upsertWith cg
        (fun sgs => upsert sg ⟨mkPeriods r period_list, r.total⟩ sgs)
        [] nested)
    []

/-- `list(next(iter(subgroups.values()))["periods"].keys()) if subgroups
else []`. -/
def groupKeys (subgroups : List (String × SgData)) : List String :=
  match subgroups with
  | [] => []
  | s :: _ => s.2.periods.map Prod.fst

/-- The child row (indent 1) emitted for one sub-group entry. -/
def sgRow (s : String × SgData) : DisplayRow :=
  { customer_group := "", custom_sub_group := s.1, vals := s.2.periods,
    total := s.2.total, indent := 1 }

/-- The rows of one customer group: the group row (indent 0, measures
summed over the sub-groups) followed by its child rows. -/
def groupBlock (cgrp : String × List (String × SgData)) : List DisplayRow :=
  let subgroups := cgrp.2
  let group_total := (subgroups.map (fun s => s.2.total)).sum
  let group_vals := (groupKeys subgroups).foldl
    (fun acc k =>
      upsert k ((subgroups.map (fun s => rowGet s.2.periods k 0)).sum) acc)
    []
  ({ customer_group := cgrp.1, custom_sub_group := "", vals := group_vals,
     total := group_total, indent := 0 } : DisplayRow)
    :: subgroups.map sgRow

/-- `build_hierarchical_rows(agg_rows, period_list)`. -/
def build_hierarchical_rows (agg_rows : List AggRow)
    (period_list : List Bucket) : List DisplayRow :=
  (buildNested agg_rows period_list).flatMap groupBlock

/-! ## Report 2: columns and chart -/

/-- A report column descriptor (the first two source columns carry no
`fieldtype` key; that is modelled as `""`). -/
structure Column where
  label : String
  fieldname : String
  fieldtype : String
  width : Nat
  deriving DecidableEq, Repr

/-- `get_columns(period_list)`. -/
def get_columns (period_list : List Bucket) : List Column :=
  [⟨"Customer Group", "customer_group", "", 200⟩,
   ⟨"Sub Group", "custom_sub_group", "", 180⟩]
  ++ period_list.map (fun p => ⟨p.label, p.key, "Float", 120⟩)
  ++ [⟨"Total", "total", "Float", 140⟩]

/-- The chart payload `{"data": {"labels": ..., "datasets": [{"name":
"Sales", "values": ...}]}, "type": "bar"}`. -/
structure Chart where
  labels : List String
  values : List Int
  dataset_name : String
  chart_type : String
  deriving DecidableEq, Repr

/-- `get_chart_data(filters, columns, data, period_list)`.  The source sums
`row.get(col, 0.0) or 0.0`; in this typed model the looked-up value is
always a number, on which `or 0.0` is the identity. -/
def get_chart_data (filters : Filters) (columns : List Column)
    (data : List DisplayRow) (period_list : List Bucket) : Chart :=
  let period_cols := period_list.map (fun p => p.key)
  let totals := period_cols.map
    (fun col => (data.map (fun row => rowGet row.vals col 0)).sum)
  let labels := period_list.map (fun p => p.label)
  { labels := labels, values := totals,
    dataset_name := "Sales", chart_type := "bar" }

/-- A concrete example filter set for report 2: a quarterly range with a
company filter. -/
def exampleFilters2 : Filters :=
  { from_date := some ⟨2025, 1, 15⟩, to_date := some ⟨2025, 12, 31⟩,
    period := some "Quarterly", company := some "ACME" }

/-! ## Report 2: `execute` -/

/-- `execute(filters)`.  The query executor `frappe.db.sql` is an abstract
collaborator `runQuery` taking the SQL text and the bound parameters.  The
final `_,_` branch is unreachable: `validate_filters` has already errored on
a missing date. -/
def execute (f : Filters)
    (runQuery : String → List (String × PVal) → List AggRow) :
    Except String (List Column × List DisplayRow × Chart) :=
  match validate_filters f with
  | Except.error e => Except.error e
  | Except.ok _ =>
    match f.from_date, f.to_date with
    | some fd, some td =>
      let period_list := get_period_date_ranges (f.period.getD "Monthly") fd td
      let columns := get_columns period_list
      match get_aggregated_query f period_list with
      | Except.error e => Except.error e
      | Except.ok q =>
        let agg_rows := runQuery q.sql q.params
        let data := build_hierarchical_rows agg_rows period_list
        let chart := get_chart_data f columns data period_list
        Except.ok (columns, data, chart)
    | _, _ => Except.error "Please select From Date and To Date"

end SalesAnalytic

namespace MostSelling

/-! ## Report 1: `most_selling_report___stock_report` -/

/-- The filter dict of report 1; `none` is an absent key.  The `limit`
filter arrives as the raw string typed by the user. -/
structure Filters where
  sort_by : Option String := none
  limit : Option String := none
  item_group : Option String := none
  deriving DecidableEq, Repr

/-- Digits of a Python `int` literal after its first digit: decimal digits
with single underscores strictly between digits. -/
def intDigitsRest : List Char → Bool
  | [] => true
  | ['_'] => false
  | '_' :: c :: cs => c.isDigit && intDigitsRest (c :: cs)
  | c :: cs => c.isDigit && intDigitsRest cs

/-- Value of a list of decimal digit characters (underscores removed). -/
def digitsToNat (ds : List Char) : Nat :=
  ds.foldl (fun a c => a * 10 + digitVal c) 0

/-- Strip leading and trailing whitespace from a character list. -/
def trimChars (cs : List Char) : List Char :=
  ((cs.dropWhile Char.isWhitespace).reverse.dropWhile Char.isWhitespace).reverse

/-- Python `int(s)` on a string: surrounding whitespace, an optional sign,
then decimal digits (single underscores allowed between digits); anything
else raises `ValueError`, i.e. returns `none`.  ASCII digits only, like
every input reachable from the report UI. -/
def pyIntParse (s : String) : Option Int :=
  let t := trimChars s.data
  let sign : Int := match t with
    | '-' :: _ => -1
    | _ => 1
  let ds := match t with
    | '-' :: rest => rest
    | '+' :: rest => rest
    | _ => t
  match ds with
  | [] => none
  | c :: cs =>
    if c.isDigit && intDigitsRest cs then
      some (sign * Int.ofNat (digitsToNat ((c :: cs).filter (fun x => x ≠ '_'))))
    else none

/-- `re.search(r"\d+", s)`: the first maximal run of decimal digits, as a
number (`int(match.group())`). -/
def firstDigitRun : List Char → Option Nat
  | [] => none
  | c :: cs =>
    if c.isDigit then some (digitsToNat (c :: cs.takeWhile Char.isDigit))
    else firstDigitRun cs

/-- The `limit` resolution block of `get_data`: `None`/empty means no limit;
otherwise try `int(limit_value)`, falling back to the first digit run of the
stringified value; no digits means no limit. -/
def resolve_limit (limit_value : Option String) : Option Int :=
  match limit_value with
  | none => none
  | some lv =>
    if lv = "" then none
    else
      match pyIntParse lv with
      | some n => some n
      | none =>
        match firstDigitRun lv.data with
        | some n => some (Int.ofNat n)
        | none => none

/-- The parts of the query assembled by `get_data` before it is executed. -/
structure Query1 where
  sort_by : String
  order_by_field : String
  limit : Option Int
  ig_condition : String
  params : List (String × String)
  limit_clause : String
  query : String
  deriving DecidableEq, Repr

def q1A : String :=
  "\n        SELECT\n            sii.item_code AS item_code,\n" ++
  "            i.item_name AS item_name,\n" ++
  "            i.item_group AS item_group,\n" ++
  "            SUM(sii.qty) AS total_qty,\n" ++
  "            SUM(sii.base_net_amount) AS total_amount,\n\n" ++
  "            COALESCE((SELECT SUM(actual_qty)\n" ++
  "                      FROM `tabBin`\n" ++
  "                      WHERE item_code = sii.item_code), 0) AS current_stock,\n\n" ++
  "            COALESCE(i.safety_stock, 0) AS safety_stock,\n\n" ++
  "            (COALESCE(i.safety_stock, 0) -\n" ++
  "             COALESCE((SELECT SUM(actual_qty)\n" ++
  "                       FROM `tabBin`\n" ++
  "                       WHERE item_code = sii.item_code), 0)\n" ++
  "            ) AS shortage_qty\n\n" ++
  "        FROM `tabSales Invoice Item` sii\n" ++
  "        INNER JOIN `tabSales Invoice` si ON si.name = sii.parent\n" ++
  "        LEFT JOIN `tabItem` i ON i.name = sii.item_code\n\n" ++
  "        WHERE si.docstatus = 1\n        "

def q1B : String :=
  "\n\n        GROUP BY sii.item_code, i.item_name, i.item_group, i.safety_stock\n\n" ++
  "        ORDER BY "

/-- The query-building part of `get_data(filters)`: everything up to the
`frappe.db.sql` call. -/
def get_data (filters : Filters) : Query1 :=
  let sort_by := strOrDefault filters.sort_by "Quantity"
  let order_by_field := if sort_by = "Amount" then "total_amount" else "total_qty"
  let limit := resolve_limit filters.limit
  let ig_condition :=
    if truthy filters.item_group then " AND i.item_group = %(item_group)s " else ""
  let params :=
    if truthy filters.item_group then [("item_group", filters.item_group.getD "")]
    else []
  let limit_clause := match limit with
    | some n => "LIMIT " ++ intStr n
    | none => ""
  { sort_by := sort_by
    order_by_field := order_by_field
    limit := limit
    ig_condition := ig_condition
    params := params
    limit_clause := limit_clause
    query := q1A ++ ig_condition ++ q1B ++ order_by_field ++ " DESC\n        " ++
             limit_clause ++ "\n    " }

/-- The end-to-end example filter set of the spec:
`{item_group: "Hardware", sort_by: "Amount", limit: "Top 10"}`. -/
def exampleFilters : Filters :=
  { sort_by := some "Amount", limit := some "Top 10",
    item_group := some "Hardware" }

end MostSelling

/-! ## Lemmas about the calendar model -/

theorem Date.le_def (a b : Date) : (a ≤ b) =
    (a.year < b.year ∨ (a.year = b.year ∧
      (a.month < b.month ∨ (a.month = b.month ∧ a.day ≤ b.day)))) := rfl

theorem Date.lt_def (a b : Date) : (a < b) =
    (a.year < b.year ∨ (a.year = b.year ∧
      (a.month < b.month ∨ (a.month = b.month ∧ a.day < b.day)))) := rfl

theorem daysInMonth_pos (y m : Nat) : 1 ≤ daysInMonth y m := by
  unfold daysInMonth
  split
  · split <;> omega
  · split <;> omega

theorem daysInMonth_le_31 (y m : Nat) : daysInMonth y m ≤ 31 := by
  unfold daysInMonth
  split
  · split <;> omega
  · split <;> omega

theorem daysInMonth_twelve (y : Nat) : daysInMonth y 12 = 31 := rfl

theorem Date.le_refl (a : Date) : a ≤ a := by
  rw [Date.le_def]; omega

theorem Date.le_of_lt {a b : Date} (h : a < b) : a ≤ b := by
  rw [Date.lt_def] at h; rw [Date.le_def]; omega

theorem Date.not_lt {a b : Date} : ¬a < b ↔ b ≤ a := by
  rw [Date.lt_def, Date.le_def]; omega

theorem Date.not_le {a b : Date} : ¬a ≤ b ↔ b < a := by
  rw [Date.lt_def, Date.le_def]; omega

theorem Date.lt_of_lt_of_le {a b c : Date} (h1 : a < b) (h2 : b ≤ c) : a < c := by
  rw [Date.lt_def] at h1 ⊢; rw [Date.le_def] at h2; omega

theorem Date.lt_of_le_of_lt {a b c : Date} (h1 : a ≤ b) (h2 : b < c) : a < c := by
  rw [Date.le_def] at h1; rw [Date.lt_def] at h2 ⊢; omega

theorem Date.le_antisymm {a b : Date} (h1 : a ≤ b) (h2 : b ≤ a) : a = b := by
  rw [Date.le_def] at h1 h2
  obtain ⟨ay, am, ad⟩ := a
  obtain ⟨y, m, dd⟩ := b
  simp only [Date.mk.injEq]
  dsimp only at h1 h2
  omega

theorem monthIndex_add_months (d : Date) (n : Nat) :
    monthIndex (add_months d n) = monthIndex d + n := by
  unfold monthIndex add_months
  dsimp only
  omega

theorem add_months_valid (d : Date) (n : Nat) (hd : d.Valid) :
    (add_months d n).Valid := by
  obtain ⟨h1, h2, h3, h4⟩ := hd
  unfold add_months Date.Valid
  dsimp only
  have hp := daysInMonth_pos ((d.year * 12 + (d.month - 1) + n) / 12)
    ((d.year * 12 + (d.month - 1) + n) % 12 + 1)
  omega

theorem monthIndex_le_of_le {a b : Date} (ha : a.Valid) (hb : b.Valid)
    (h : a ≤ b) : monthIndex a ≤ monthIndex b := by
  obtain ⟨a1, a2, a3, a4⟩ := ha
  obtain ⟨b1, b2, b3, b4⟩ := hb
  rw [Date.le_def] at h
  unfold monthIndex
  omega

theorem lt_of_monthIndex_lt {a b : Date} (ha : a.Valid) (hb : b.Valid)
    (h : monthIndex a < monthIndex b) : a < b := by
  obtain ⟨a1, a2, a3, a4⟩ := ha
  obtain ⟨b1, b2, b3, b4⟩ := hb
  unfold monthIndex at h
  rw [Date.lt_def]
  omega

theorem Date.pred_lt {d : Date} (hd : d.Valid) (hmi : 1 ≤ monthIndex d) :
    d.pred < d := by
  obtain ⟨y, m, dd⟩ := d
  obtain ⟨h1, h2, h3, h4⟩ := hd
  unfold monthIndex at hmi
  dsimp only at *
  unfold Date.pred
  dsimp only
  split
  · rw [Date.lt_def]; dsimp only; omega
  · split
    · rw [Date.lt_def]; dsimp only; omega
    · rw [Date.lt_def]; dsimp only; omega

theorem Date.le_pred_of_lt {a d : Date} (ha : a.Valid) (h : a < d) :
    a ≤ d.pred := by
  obtain ⟨ay, am, ad⟩ := a
  obtain ⟨y, m, dd⟩ := d
  obtain ⟨h1, h2, h3, h4⟩ := ha
  rw [Date.lt_def] at h
  dsimp only at *
  unfold Date.pred
  dsimp only
  split
  · rw [Date.le_def]; dsimp only; omega
  · split
    · rw [Date.le_def]; dsimp only
      rcases h with hy | ⟨hy, hm⟩
      · omega
      · rcases hm with hm | ⟨hm, hdd⟩
        · by_cases he : am = m - 1
          · subst hy; rw [he] at h4; omega
          · omega
        · omega
    · rw [Date.le_def]; dsimp only
      have h31 := daysInMonth_le_31 ay am
      omega

theorem Date.next_pred {d : Date} (hd : d.Valid) (hmi : 1 ≤ monthIndex d) :
    d.pred.next = d := by
  obtain ⟨y, m, dd⟩ := d
  obtain ⟨h1, h2, h3, h4⟩ := hd
  unfold monthIndex at hmi
  dsimp only at *
  unfold Date.pred
  dsimp only
  split
  · unfold Date.next
    dsimp only
    have hc : dd - 1 < daysInMonth y m := by omega
    rw [if_pos hc]
    simp only [Date.mk.injEq, eq_self_iff_true, true_and]
    omega
  · split
    · unfold Date.next
      dsimp only
      have hc1 : ¬daysInMonth y (m - 1) < daysInMonth y (m - 1) := by omega
      have hc2 : m - 1 < 12 := by omega
      rw [if_neg hc1, if_pos hc2]
      simp only [Date.mk.injEq, eq_self_iff_true, true_and]
      omega
    · unfold Date.next
      dsimp only
      rw [daysInMonth_twelve]
      have hc1 : ¬(31 : Nat) < 31 := by omega
      have hc2 : ¬(12 : Nat) < 12 := by omega
      rw [if_neg hc1, if_neg hc2]
      simp only [Date.mk.injEq, eq_self_iff_true, true_and]
      omega

theorem Date.lt_add_months {d : Date} (hd : d.Valid) {n : Nat} (hn : 1 ≤ n) :
    d < add_months d n :=
  lt_of_monthIndex_lt hd (add_months_valid d n hd)
    (by rw [monthIndex_add_months]; omega)

theorem Date.le_pred_add_months {d : Date} (hd : d.Valid) {n : Nat}
    (hn : 1 ≤ n) : d ≤ (add_months d n).pred :=
  Date.le_pred_of_lt hd (Date.lt_add_months hd hn)

theorem monthIndex_add_months_pos (d : Date) {n : Nat} (hn : 1 ≤ n) :
    1 ≤ monthIndex (add_months d n) := by
  rw [monthIndex_add_months]; omega

/-! ## Lemmas about decimal rendering, month abbreviations and bucket keys -/


theorem string_ext {s t : String} (h : s.data = t.data) : s = t := by
  cases s; cases t; exact congrArg String.mk h

theorem data_append_eq (s t : String) : (s ++ t).data = s.data ++ t.data := by
  cases s; cases t; rfl

theorem digitVal_digitChar {k : Nat} (h : k < 10) :
    digitVal (digitChar k) = k := by
  interval_cases k <;> rfl

theorem digitChar_isDigit {k : Nat} (h : k < 10) :
    (digitChar k).isDigit = true := by
  interval_cases k <;> rfl

theorem digitsVal_natDigitsAux :
    ∀ (fuel n : Nat), n ≤ fuel → digitsVal (natDigitsAux fuel n) = n := by
  intro fuel
  induction fuel with
  | zero => intro n h; interval_cases n; rfl
  | succ fuel ih =>
    intro n h
    simp only [natDigitsAux]
    by_cases h0 : n = 0
    · rw [if_pos h0]; simp [digitsVal]; omega
    · rw [if_neg h0]
      simp only [digitsVal]
      rw [ih (n / 10) (by omega), digitVal_digitChar (by omega)]
      omega

theorem natDigitsAux_isDigit :
    ∀ (fuel n : Nat), ∀ c ∈ natDigitsAux fuel n, c.isDigit = true := by
  intro fuel
  induction fuel with
  | zero => intro n c hc; simp [natDigitsAux] at hc
  | succ fuel ih =>
    intro n c hc
    simp only [natDigitsAux] at hc
    by_cases h0 : n = 0
    · rw [if_pos h0] at hc; simp at hc
    · rw [if_neg h0] at hc
      rcases List.mem_cons.mp hc with hc | hc
      · subst hc; exact digitChar_isDigit (by omega)
      · exact ih (n / 10) c hc

theorem natDigits_isDigit (n : Nat) : ∀ c ∈ natDigits n, c.isDigit = true := by
  intro c hc
  unfold natDigits at hc
  by_cases h0 : n = 0
  · rw [if_pos h0] at hc
    simp at hc
    subst hc
    rfl
  · rw [if_neg h0] at hc
    rw [List.mem_reverse] at hc
    exact natDigitsAux_isDigit n n c hc

theorem natDigits_inj {a b : Nat} (h : natDigits a = natDigits b) : a = b := by
  unfold natDigits at h
  by_cases ha : a = 0 <;> by_cases hb : b = 0
  · omega
  · rw [if_pos ha, if_neg hb] at h
    have h2 : natDigitsAux b b = ['0'] := by
      have h3 := congrArg List.reverse h
      simpa using h3.symm
    have h3 := digitsVal_natDigitsAux b b (Nat.le_refl b)
    rw [h2] at h3
    rw [show digitsVal ['0'] = 0 from rfl] at h3
    omega
  · rw [if_neg ha, if_pos hb] at h
    have h2 : natDigitsAux a a = ['0'] := by
      have h3 := congrArg List.reverse h
      simpa using h3
    have h3 := digitsVal_natDigitsAux a a (Nat.le_refl a)
    rw [h2] at h3
    rw [show digitsVal ['0'] = 0 from rfl] at h3
    omega
  · rw [if_neg ha, if_neg hb] at h
    have h2 : natDigitsAux a a = natDigitsAux b b := by
      have h3 := congrArg List.reverse h
      simpa using h3
    have h3 := digitsVal_natDigitsAux a a (Nat.le_refl a)
    have h4 := digitsVal_natDigitsAux b b (Nat.le_refl b)
    rw [h2] at h3
    omega

theorem natStr_inj {a b : Nat} (h : natStr a = natStr b) : a = b :=
  natDigits_inj (congrArg String.data h)

theorem monthAbbrev_data_length {m : Nat} (h1 : 1 ≤ m) (h2 : m ≤ 12) :
    (monthAbbrev m).data.length = 3 := by
  interval_cases m <;> rfl

theorem monthAbbrev_inj {m1 m2 : Nat} (h11 : 1 ≤ m1) (h12 : m1 ≤ 12)
    (h21 : 1 ≤ m2) (h22 : m2 ≤ 12) (he : monthAbbrev m1 = monthAbbrev m2) :
    m1 = m2 := by
  interval_cases m1 <;> interval_cases m2 <;>
    first
    | rfl
    | exact absurd he (by decide)

theorem monthAbbrev_isAlpha :
    ∀ (m : Nat), ∀ c ∈ (monthAbbrev m).data, c.isAlpha = true := by
  intro m
  match m with
  | 0 => intro c hc; exact absurd hc (List.not_mem_nil c)
  | 1 => decide
  | 2 => decide
  | 3 => decide
  | 4 => decide
  | 5 => decide
  | 6 => decide
  | 7 => decide
  | 8 => decide
  | 9 => decide
  | 10 => decide
  | 11 => decide
  | 12 => decide
  | n + 13 => intro c hc; exact absurd hc (List.not_mem_nil c)

/-- Every character of a bucket key is a letter, a digit or an underscore. -/
theorem dateKey_charset (d : Date) :
    ∀ c ∈ (dateKey d).data, c.isAlphanum = true ∨ c = '_' := by
  intro c hc
  unfold dateKey at hc
  simp only [data_append_eq] at hc
  rcases List.mem_append.mp hc with hc | hc
  · rcases List.mem_append.mp hc with hc | hc
    · left
      unfold Char.isAlphanum
      rw [monthAbbrev_isAlpha d.month c hc]
      rfl
    · right
      simpa using hc
  · left
    unfold Char.isAlphanum
    rw [natDigits_isDigit d.year c hc]
    simp

/-- Bucket keys determine the (month, year) pair of their start date. -/
theorem dateKey_inj_monthIndex {d1 d2 : Date} (h1 : d1.Valid) (h2 : d2.Valid)
    (he : dateKey d1 = dateKey d2) : monthIndex d1 = monthIndex d2 := by
  obtain ⟨h1a, h1b, _, _⟩ := h1
  obtain ⟨h2a, h2b, _, _⟩ := h2
  unfold dateKey at he
  have hd := congrArg String.data he
  simp only [data_append_eq] at hd
  have l1 : ((monthAbbrev d1.month).data ++ ("_" : String).data).length =
      ((monthAbbrev d2.month).data ++ ("_" : String).data).length := by
    rw [List.length_append, List.length_append,
      monthAbbrev_data_length h1a h1b, monthAbbrev_data_length h2a h2b]
  obtain ⟨hm, hy⟩ := List.append_inj hd l1
  have hm2 : (monthAbbrev d1.month).data = (monthAbbrev d2.month).data :=
    (List.append_inj hm (by
      rw [monthAbbrev_data_length h1a h1b, monthAbbrev_data_length h2a h2b])).1
  have hmm : d1.month = d2.month :=
    monthAbbrev_inj h1a h1b h2a h2b (string_ext hm2)
  have hyy : d1.year = d2.year := natStr_inj (string_ext hy)
  unfold monthIndex
  rw [hmm, hyy]

/-! ## Lemmas about the period bucketer -/

namespace SalesAnalytic

theorem periodStep_pos (p : String) : 1 ≤ periodStep p := by
  unfold periodStep increments
  simp only [List.lookup]
  repeat' split
  all_goals decide

theorem bucketsGo_head {step : Nat} {td : Date} (fuel : Nat) (s : Date)
    (b : Bucket) (hb : (bucketsGo step td fuel s).head? = some b) :
    b.from_date = s ∧ s ≤ td := by
  cases fuel with
  | zero => simp [bucketsGo] at hb
  | succ fuel =>
    by_cases hle : s ≤ td
    · simp only [bucketsGo] at hb
      rw [if_pos hle] at hb
      simp only [List.head?_cons, Option.some.injEq] at hb
      subst hb
      exact ⟨rfl, hle⟩
    · simp only [bucketsGo] at hb
      rw [if_neg hle] at hb
      simp at hb

theorem le_of_bucketsGo_ne_nil {step : Nat} {td : Date} (fuel : Nat) (s : Date)
    (h : bucketsGo step td fuel s ≠ []) : s ≤ td := by
  cases fuel with
  | zero => simp [bucketsGo] at h
  | succ fuel =>
    by_cases hle : s ≤ td
    · exact hle
    · simp only [bucketsGo] at h
      rw [if_neg hle] at h
      simp at h

/-- Per-bucket facts: every emitted bucket starts at a valid date not past
`to_date`, its key and label are derived from its start, and its end is the
clamped `add_months(start, step) - 1 day`. -/
theorem bucketsGo_mem {step : Nat} {td : Date} (hstep : 1 ≤ step)
    (htd : td.Valid) :
    ∀ (fuel : Nat) (s : Date), s.Valid →
      ∀ b ∈ bucketsGo step td fuel s,
        b.from_date.Valid ∧ b.from_date ≤ td ∧
        b.key = dateKey b.from_date ∧ b.label = dateLabel b.from_date ∧
        b.to_date = (if td < (add_months b.from_date step).pred then td
                     else (add_months b.from_date step).pred) ∧
        b.from_date ≤ b.to_date := by
  intro fuel
  induction fuel with
  | zero => intro s _ b hb; simp [bucketsGo] at hb
  | succ fuel ih =>
    intro s hs b hb
    simp only [bucketsGo] at hb
    by_cases hle : s ≤ td
    · rw [if_pos hle] at hb
      rcases List.mem_cons.mp hb with hb | hb
      · subst hb
        dsimp only
        refine ⟨hs, hle, rfl, rfl, rfl, ?_⟩
        split
        · exact hle
        · exact Date.le_pred_add_months hs hstep
      · exact ih (add_months s step) (add_months_valid s step hs) b hb
    · rw [if_neg hle] at hb
      simp at hb

theorem bucketsGo_chain {step : Nat} {td : Date} (hstep : 1 ≤ step)
    (htd : td.Valid) :
    ∀ (fuel : Nat) (s : Date), s.Valid →
      List.Chain' (BucketRel step) (bucketsGo step td fuel s) := by
  intro fuel
  induction fuel with
  | zero => intro s _; simp [bucketsGo]
  | succ fuel ih =>
    intro s hs
    simp only [bucketsGo]
    by_cases hle : s ≤ td
    · rw [if_pos hle]
      rw [List.chain'_cons']
      refine ⟨?_, ih (add_months s step) (add_months_valid s step hs)⟩
      intro y hy
      obtain ⟨hyf, hynx⟩ := bucketsGo_head fuel (add_months s step) y hy
      have hnxv := add_months_valid s step hs
      have hmi1 := monthIndex_add_months_pos s hstep
      have hpl : (add_months s step).pred < add_months s step :=
        Date.pred_lt hnxv hmi1
      have hnotlt : ¬td < (add_months s step).pred := by
        rw [Date.not_lt]
        exact Date.le_of_lt (Date.lt_of_lt_of_le hpl hynx)
      unfold BucketRel
      dsimp only
      rw [if_neg hnotlt]
      refine ⟨hyf, rfl, ?_, ?_⟩
      · rw [Date.next_pred hnxv hmi1]; exact hyf
      · rw [hyf]; exact hpl
    · rw [if_neg hle]
      simp

/-- With enough fuel the loop emits at least one bucket, and the last one
ends exactly at `to_date`. -/
theorem bucketsGo_last {step : Nat} {td : Date} (hstep : 1 ≤ step)
    (htd : td.Valid) :
    ∀ (fuel : Nat) (s : Date), s.Valid → s ≤ td →
      monthIndex td < monthIndex s + fuel →
      bucketsGo step td fuel s ≠ [] ∧
      ∀ b, (bucketsGo step td fuel s).getLast? = some b → b.to_date = td := by
  intro fuel
  induction fuel with
  | zero =>
    intro s hs hle hfuel
    have := monthIndex_le_of_le hs htd hle
    omega
  | succ fuel ih =>
    intro s hs hle hfuel
    simp only [bucketsGo]
    rw [if_pos hle]
    refine ⟨List.cons_ne_nil _ _, ?_⟩
    intro b hb
    cases hrest : bucketsGo step td fuel (add_months s step) with
    | nil =>
      rw [hrest] at hb
      simp only [List.getLast?_singleton, Option.some.injEq] at hb
      subst hb
      dsimp only
      have hnx : td < add_months s step := by
        by_cases hnxle : add_months s step ≤ td
        · cases fuel with
          | zero =>
            have h1 := monthIndex_le_of_le hs htd hle
            have h2 := monthIndex_le_of_le (add_months_valid s step hs) htd hnxle
            rw [monthIndex_add_months] at h2
            omega
          | succ fuel2 =>
            simp only [bucketsGo] at hrest
            rw [if_pos hnxle] at hrest
            simp at hrest
        · exact Date.not_le.mp hnxle
      have hlepred : td ≤ (add_months s step).pred := Date.le_pred_of_lt htd hnx
      by_cases hq : td < (add_months s step).pred
      · rw [if_pos hq]
      · rw [if_neg hq]
        exact (Date.le_antisymm hlepred (Date.not_lt.mp hq)).symm
    | cons y l =>
      rw [hrest] at hb
      rw [List.getLast?_cons_cons] at hb
      have hnxle : add_months s step ≤ td := by
        apply le_of_bucketsGo_ne_nil fuel (add_months s step)
        rw [hrest]
        simp
      have hfuel2 : monthIndex td < monthIndex (add_months s step) + fuel := by
        rw [monthIndex_add_months]; omega
      have hlast := (ih (add_months s step) (add_months_valid s step hs) hnxle
        hfuel2).2 b
      rw [hrest] at hlast
      exact hlast hb

theorem chain_head_sep :
    ∀ (xs : List Bucket) (x : Bucket),
      List.Chain' (fun b b' : Bucket => b.to_date < b'.from_date) (x :: xs) →
      (∀ b ∈ x :: xs, b.from_date ≤ b.to_date) →
      ∀ y ∈ xs, x.to_date < y.from_date := by
  intro xs
  induction xs with
  | nil => intro x _ _ y hy; simp at hy
  | cons z zs ih =>
    intro x hc hm y hy
    have hxz : x.to_date < z.from_date := (List.chain'_cons.mp hc).1
    rcases List.mem_cons.mp hy with hy | hy
    · subst hy; exact hxz
    · have hz : z.to_date < y.from_date :=
        ih z (List.chain'_cons.mp hc).2
          (fun b hb => hm b (List.mem_cons_of_mem x hb)) y hy
      have h1 : z.from_date ≤ z.to_date := hm z (by simp)
      exact Date.lt_of_lt_of_le hxz
        (Date.le_of_lt (Date.lt_of_le_of_lt h1 hz))

/-- Non-overlap, globally: strengthen the consecutive separation to all
pairs, using that every bucket's range is non-degenerate. -/
theorem buckets_pairwise :
    ∀ (l : List Bucket),
      List.Chain' (fun b b' : Bucket => b.to_date < b'.from_date) l →
      (∀ b ∈ l, b.from_date ≤ b.to_date) →
      List.Pairwise (fun b b' : Bucket => b.to_date < b'.from_date) l := by
  intro l
  induction l with
  | nil => intro _ _; exact List.Pairwise.nil
  | cons x xs ih =>
    intro hc hm
    rw [List.pairwise_cons]
    refine ⟨chain_head_sep xs x hc hm, ?_⟩
    exact ih (List.chain'_cons'.mp hc).2
      (fun b hb => hm b (List.mem_cons_of_mem x hb))

end SalesAnalytic

/-! ## Claims C1 and C9: the period bucketer -/

/-- C1: for every well-formed `from_date ≤ to_date` and period in
{Monthly, Quarterly, Half Yearly, Yearly}, `get_period_date_ranges` returns
a non-empty bucket list whose first bucket starts at `from_date`; buckets
are ordered ascending and non-overlapping, contiguous (each bucket after
the first starts one day after the previous bucket's end), every bucket
except possibly the last ends at its start plus the period's month
increment minus one day, and the last bucket ends exactly at `to_date`
(clamped); `from_date = to_date` yields exactly one bucket, and the
quarterly example 2025-01-15..2025-12-31 yields exactly the four stated
buckets. -/
theorem claim_C1 :
    (∀ (period : String) (fd td : Date),
      period ∈ SalesAnalytic.allowed_periods → fd.Valid → td.Valid → fd ≤ td →
      (SalesAnalytic.get_period_date_ranges period fd td ≠ [] ∧
       (∀ b, (SalesAnalytic.get_period_date_ranges period fd td).head? = some b →
          b.from_date = fd) ∧
       (∀ b ∈ SalesAnalytic.get_period_date_ranges period fd td,
          b.from_date ≤ b.to_date) ∧
       List.Chain' (fun b b' => b'.from_date = b.to_date.next)
         (SalesAnalytic.get_period_date_ranges period fd td) ∧
       List.Chain'
         (fun b _ => b.to_date =
           (add_months b.from_date (SalesAnalytic.periodStep period)).pred)
         (SalesAnalytic.get_period_date_ranges period fd td) ∧
       List.Pairwise (fun b b' => b.to_date < b'.from_date)
         (SalesAnalytic.get_period_date_ranges period fd td) ∧
       (∀ b, (SalesAnalytic.get_period_date_ranges period fd td).getLast? =
          some b → b.to_date = td) ∧
       (fd = td →
         (SalesAnalytic.get_period_date_ranges period fd td).length = 1))) ∧
    SalesAnalytic.get_period_date_ranges "Quarterly" ⟨2025, 1, 15⟩
        ⟨2025, 12, 31⟩ =
      [⟨"Jan_2025", "Jan 2025", ⟨2025, 1, 15⟩, ⟨2025, 4, 14⟩⟩,
       ⟨"Apr_2025", "Apr 2025", ⟨2025, 4, 15⟩, ⟨2025, 7, 14⟩⟩,
       ⟨"Jul_2025", "Jul 2025", ⟨2025, 7, 15⟩, ⟨2025, 10, 14⟩⟩,
       ⟨"Oct_2025", "Oct 2025", ⟨2025, 10, 15⟩, ⟨2025, 12, 31⟩⟩] := by
  constructor
  · intro period fd td hper hfd htd hle
    have hstep : 1 ≤ SalesAnalytic.periodStep period :=
      SalesAnalytic.periodStep_pos period
    have hfuel : monthIndex td < monthIndex fd +
        (td.year * 12 + td.month + 2) := by
      unfold monthIndex; omega
    have hlast := SalesAnalytic.bucketsGo_last hstep htd
      (td.year * 12 + td.month + 2) fd hfd hle hfuel
    have hmem := SalesAnalytic.bucketsGo_mem hstep htd
      (td.year * 12 + td.month + 2) fd hfd
    have hchain := SalesAnalytic.bucketsGo_chain hstep htd
      (td.year * 12 + td.month + 2) fd hfd
    refine ⟨hlast.1, ?_, ?_, ?_, ?_, ?_, hlast.2, ?_⟩
    · intro b hb
      exact (SalesAnalytic.bucketsGo_head _ fd b hb).1
    · intro b hb
      exact (hmem b hb).2.2.2.2.2
    · exact hchain.imp (fun a b h => h.2.2.1)
    · exact hchain.imp (fun a b h => h.2.1)
    · exact SalesAnalytic.buckets_pairwise _
        (hchain.imp (fun a b h => h.2.2.2))
        (fun b hb => (hmem b hb).2.2.2.2.2)
    · intro heq
      subst heq
      cases hcase : SalesAnalytic.get_period_date_ranges period fd fd with
      | nil => exact absurd hcase hlast.1
      | cons b rest =>
        cases hrest : rest with
        | nil => rfl
        | cons y rest2 =>
          exfalso
          have hy : y ∈ SalesAnalytic.get_period_date_ranges period fd fd := by
            rw [hcase, hrest]; simp
          have hyfacts := hmem y hy
          have hRby : SalesAnalytic.BucketRel
              (SalesAnalytic.periodStep period) b y := by
            have hc2 := hchain
            rw [show SalesAnalytic.bucketsGo (SalesAnalytic.periodStep period)
                fd (fd.year * 12 + fd.month + 2) fd =
                b :: y :: rest2 from by rw [← hrest]; exact hcase] at hc2
            exact (List.chain'_cons.mp hc2).1
          have hbf : b.from_date = fd := by
            have hb : (SalesAnalytic.get_period_date_ranges period fd
                fd).head? = some b := by rw [hcase]; rfl
            exact (SalesAnalytic.bucketsGo_head _ fd b hb).1
          have h1 : monthIndex y.from_date =
              monthIndex fd + SalesAnalytic.periodStep period := by
            rw [hRby.1, hbf, monthIndex_add_months]
          have h2 : monthIndex y.from_date ≤ monthIndex fd :=
            monthIndex_le_of_le hyfacts.1 hfd hyfacts.2.1
          omega
  · decide

theorem claim_C1_witness :
    ("Quarterly" ∈ SalesAnalytic.allowed_periods ∧
      (⟨2025, 1, 15⟩ : Date).Valid ∧ (⟨2025, 12, 31⟩ : Date).Valid ∧
      (⟨2025, 1, 15⟩ : Date) ≤ ⟨2025, 12, 31⟩) ∧
    (SalesAnalytic.get_period_date_ranges "Quarterly" ⟨2025, 1, 15⟩
        ⟨2025, 12, 31⟩ ≠ [] ∧
     (∀ b, (SalesAnalytic.get_period_date_ranges "Quarterly" ⟨2025, 1, 15⟩
        ⟨2025, 12, 31⟩).head? = some b → b.from_date = ⟨2025, 1, 15⟩) ∧
     (∀ b ∈ SalesAnalytic.get_period_date_ranges "Quarterly" ⟨2025, 1, 15⟩
        ⟨2025, 12, 31⟩, b.from_date ≤ b.to_date) ∧
     List.Chain' (fun b b' => b'.from_date = b.to_date.next)
       (SalesAnalytic.get_period_date_ranges "Quarterly" ⟨2025, 1, 15⟩
         ⟨2025, 12, 31⟩) ∧
     List.Chain'
       (fun b _ => b.to_date =
         (add_months b.from_date (SalesAnalytic.periodStep "Quarterly")).pred)
       (SalesAnalytic.get_period_date_ranges "Quarterly" ⟨2025, 1, 15⟩
         ⟨2025, 12, 31⟩) ∧
     List.Pairwise (fun b b' => b.to_date < b'.from_date)
       (SalesAnalytic.get_period_date_ranges "Quarterly" ⟨2025, 1, 15⟩
         ⟨2025, 12, 31⟩) ∧
     (∀ b, (SalesAnalytic.get_period_date_ranges "Quarterly" ⟨2025, 1, 15⟩
        ⟨2025, 12, 31⟩).getLast? = some b → b.to_date = ⟨2025, 12, 31⟩) ∧
     ((⟨2025, 1, 15⟩ : Date) = ⟨2025, 12, 31⟩ →
       (SalesAnalytic.get_period_date_ranges "Quarterly" ⟨2025, 1, 15⟩
         ⟨2025, 12, 31⟩).length = 1)) :=
  ⟨⟨by decide, by decide, by decide, by decide⟩,
   claim_C1.1 "Quarterly" ⟨2025, 1, 15⟩ ⟨2025, 12, 31⟩ (by decide) (by decide)
     (by decide) (by decide)⟩

/-- C9: every bucket key produced by `get_period_date_ranges` is derived
solely from the bucket's start date (`%b_%Y`: month abbreviation,
underscore, year), distinct buckets of one call carry distinct keys, and
every key character is a letter, a digit or an underscore, so the key is
safe to embed as a generated column identifier in the SQL of
`get_aggregated_rows`. -/
theorem claim_C9 :
    ∀ (period : String) (fd td : Date), fd.Valid → td.Valid →
      ((∀ b ∈ SalesAnalytic.get_period_date_ranges period fd td,
          b.key = dateKey b.from_date ∧
          ∀ c ∈ b.key.data, c.isAlphanum = true ∨ c = '_') ∧
       ((SalesAnalytic.get_period_date_ranges period fd td).map
          (fun b => b.key)).Nodup) := by
  intro period fd td hfd htd
  have hstep : 1 ≤ SalesAnalytic.periodStep period :=
    SalesAnalytic.periodStep_pos period
  have hmem := SalesAnalytic.bucketsGo_mem hstep htd
    (td.year * 12 + td.month + 2) fd hfd
  have hchain := SalesAnalytic.bucketsGo_chain hstep htd
    (td.year * 12 + td.month + 2) fd hfd
  constructor
  · intro b hb
    have hfacts := hmem b hb
    refine ⟨hfacts.2.2.1, ?_⟩
    intro c hc
    rw [hfacts.2.2.1] at hc
    exact dateKey_charset b.from_date c hc
  · have hmi : List.Chain'
        (fun b b' : SalesAnalytic.Bucket =>
          monthIndex b.from_date < monthIndex b'.from_date)
        (SalesAnalytic.get_period_date_ranges period fd td) := by
      refine hchain.imp (fun a b h => ?_)
      rw [h.1, monthIndex_add_months]
      omega
    haveI : IsTrans SalesAnalytic.Bucket
        (fun b b' => monthIndex b.from_date < monthIndex b'.from_date) :=
      ⟨fun a b c h1 h2 => Nat.lt_trans h1 h2⟩
    have hpw := List.chain'_iff_pairwise.mp hmi
    have hpwne : List.Pairwise
        (fun b b' : SalesAnalytic.Bucket => b.key ≠ b'.key)
        (SalesAnalytic.get_period_date_ranges period fd td) := by
      refine List.Pairwise.imp_of_mem (fun ha hb hr => ?_) hpw
      intro hkey
      rename_i a b
      have hfa := hmem a ha
      have hfb := hmem b hb
      rw [hfa.2.2.1, hfb.2.2.1] at hkey
      have := dateKey_inj_monthIndex hfa.1 hfb.1 hkey
      omega
    exact List.pairwise_map.mpr hpwne

theorem claim_C9_witness :
    (⟨2025, 1, 15⟩ : Date).Valid ∧ (⟨2025, 12, 31⟩ : Date).Valid ∧
    ((∀ b ∈ SalesAnalytic.get_period_date_ranges "Quarterly" ⟨2025, 1, 15⟩
        ⟨2025, 12, 31⟩,
        b.key = dateKey b.from_date ∧
        ∀ c ∈ b.key.data, c.isAlphanum = true ∨ c = '_') ∧
     ((SalesAnalytic.get_period_date_ranges "Quarterly" ⟨2025, 1, 15⟩
        ⟨2025, 12, 31⟩).map (fun b => b.key)).Nodup) :=
  ⟨by decide, by decide,
   claim_C9 "Quarterly" ⟨2025, 1, 15⟩ ⟨2025, 12, 31⟩ (by decide) (by decide)⟩

/-! ## Lemmas about report 1 and the filter helpers -/

theorem truthy_some_iff {v : String} : truthy (some v) = true ↔ v ≠ "" := by
  simp [truthy]

theorem truthy_eq_false_iff {o : Option String} :
    truthy o = false ↔ o = none ∨ o = some "" := by
  cases o with
  | none => simp [truthy]
  | some s => simp [truthy]

theorem isDigit_ne_percent {c : Char} (h : c.isDigit = true) : c ≠ '%' := by
  intro he
  subst he
  exact absurd h (by decide)

theorem intStr_chars (n : Int) :
    ∀ c ∈ (intStr n).data, c = '-' ∨ c.isDigit = true := by
  intro c hc
  unfold intStr at hc
  by_cases hn : n < 0
  · rw [if_pos hn] at hc
    rcases List.mem_cons.mp hc with hc | hc
    · left; exact hc
    · right; exact natDigits_isDigit n.natAbs c hc
  · rw [if_neg hn] at hc
    right
    exact natDigits_isDigit n.natAbs c hc

namespace MostSelling

theorem get_data_sort_by (f : Filters) :
    (get_data f).sort_by = strOrDefault f.sort_by "Quantity" := rfl

theorem get_data_order (f : Filters) : (get_data f).order_by_field =
    if strOrDefault f.sort_by "Quantity" = "Amount" then "total_amount"
    else "total_qty" := rfl

theorem get_data_limit (f : Filters) :
    (get_data f).limit = resolve_limit f.limit := rfl

theorem get_data_limit_clause (f : Filters) : (get_data f).limit_clause =
    (match resolve_limit f.limit with
     | some n => "LIMIT " ++ intStr n
     | none => "") := rfl

theorem get_data_ig (f : Filters) : (get_data f).ig_condition =
    (if truthy f.item_group then " AND i.item_group = %(item_group)s "
     else "") := rfl

theorem get_data_params (f : Filters) : (get_data f).params =
    (if truthy f.item_group then [("item_group", f.item_group.getD "")]
     else []) := rfl

theorem get_data_query (f : Filters) : (get_data f).query =
    q1A ++ (get_data f).ig_condition ++ q1B ++ (get_data f).order_by_field ++
      " DESC\n        " ++ (get_data f).limit_clause ++ "\n    " := rfl

theorem get_data_order_cases (f : Filters) :
    (get_data f).order_by_field = "total_amount" ∨
    (get_data f).order_by_field = "total_qty" := by
  rw [get_data_order]
  by_cases hA : strOrDefault f.sort_by "Quantity" = "Amount"
  · left; rw [if_pos hA]
  · right; rw [if_neg hA]

end MostSelling

/-! ## Claim C3: limit parsing -/

/-- C3: the resolved limit of report 1 is the direct Python integer parse
of the value when that succeeds, otherwise the integer given by the first
run of decimal digits of the value, otherwise no limit; `"50"` gives 50,
`"Top 50 items"` gives 50, `"abc"`, `""` and an absent filter give no
limit. -/
theorem claim_C3 :
    (∀ (s : String) (n : Int), MostSelling.pyIntParse s = some n →
       MostSelling.resolve_limit (some s) = some n) ∧
    (∀ s : String, MostSelling.pyIntParse s = none →
       MostSelling.resolve_limit (some s) =
         (MostSelling.firstDigitRun s.data).map Int.ofNat) ∧
    MostSelling.resolve_limit none = none ∧
    MostSelling.resolve_limit (some "") = none ∧
    MostSelling.resolve_limit (some "50") = some 50 ∧
    MostSelling.resolve_limit (some "Top 50 items") = some 50 ∧
    MostSelling.resolve_limit (some "abc") = none := by
  refine ⟨?_, ?_, rfl, by decide, by decide, by decide, by decide⟩
  · intro s n h
    by_cases hs : s = ""
    · subst hs
      rw [show MostSelling.pyIntParse "" = none from rfl] at h
      exact absurd h (by simp)
    · simp only [MostSelling.resolve_limit]
      rw [if_neg hs, h]
  · intro s h
    by_cases hs : s = ""
    · subst hs
      decide
    · simp only [MostSelling.resolve_limit]
      rw [if_neg hs, h]
      cases hfd : MostSelling.firstDigitRun s.data with
      | none => rfl
      | some k => rfl

theorem claim_C3_witness :
    MostSelling.pyIntParse "50" = some 50 ∧
    MostSelling.resolve_limit (some "50") = some 50 :=
  ⟨by decide, claim_C3.1 "50" 50 (by decide)⟩

theorem not_mem_of_charsContain_single {x : Char} :
    ∀ (l : List Char), charsContain [x] l = false → ∀ c ∈ l, c ≠ x := by
  intro l
  induction l with
  | nil => intro _ c hc; simp at hc
  | cons a as ih =>
    intro h c hc
    simp only [charsContain, charsLeadWith, Bool.or_eq_false_iff,
      Bool.and_eq_false_iff] at h
    rcases List.mem_cons.mp hc with hc | hc
    · subst hc
      rcases h.1 with h1 | h1
      · intro he
        subst he
        simp at h1
      · simp [charsLeadWith] at h1
    · exact ih h.2 c hc

/-! ## Claim C4: report 1 query construction -/

/-- C4: the report-1 query orders by `total_amount` descending exactly when
`sort_by` is "Amount" and by `total_qty` descending otherwise (the ORDER BY
column is always one of the two fixed names); a LIMIT clause with the
resolved integer appears exactly when a limit was resolved; and the
parameterised item_group equality condition, with the value bound as a
query parameter, appears exactly when the item_group filter is given (a
query with no item_group filter contains no `%`-style placeholder at
all). -/
theorem claim_C4 :
    ∀ f : MostSelling.Filters,
      ((f.sort_by = some "Amount" →
          (MostSelling.get_data f).order_by_field = "total_amount") ∧
       (f.sort_by ≠ some "Amount" →
          (MostSelling.get_data f).order_by_field = "total_qty") ∧
       (∃ pre post, (MostSelling.get_data f).query =
          pre ++ ("ORDER BY " ++ (MostSelling.get_data f).order_by_field ++
            " DESC") ++ post)) ∧
      ((∀ n : Int, MostSelling.resolve_limit f.limit = some n →
          (MostSelling.get_data f).limit_clause = "LIMIT " ++ intStr n ∧
          ∃ pre post, (MostSelling.get_data f).query =
            pre ++ ("LIMIT " ++ intStr n) ++ post) ∧
       (MostSelling.resolve_limit f.limit = none →
          (MostSelling.get_data f).limit_clause = "" ∧
          strContains (MostSelling.get_data f).query "LIMIT" = false)) ∧
      ((∀ v : String, f.item_group = some v → v ≠ "" →
          (MostSelling.get_data f).ig_condition =
            " AND i.item_group = %(item_group)s " ∧
          (MostSelling.get_data f).params = [("item_group", v)] ∧
          ∃ pre post, (MostSelling.get_data f).query =
            pre ++ " AND i.item_group = %(item_group)s " ++ post) ∧
       ((f.item_group = none ∨ f.item_group = some "") →
          (MostSelling.get_data f).ig_condition = "" ∧
          (MostSelling.get_data f).params = [] ∧
          (∀ c ∈ (MostSelling.get_data f).query.data, c ≠ '%') ∧
          ¬∃ pre post, (MostSelling.get_data f).query =
            pre ++ " AND i.item_group = %(item_group)s " ++ post)) := by
  intro f
  have hsplitB : MostSelling.q1B =
      ("\n\n        GROUP BY sii.item_code, i.item_name, i.item_group, i.safety_stock\n\n        " : String) ++
        "ORDER BY " := by decide
  have hdesc : (" DESC\n        " : String) = " DESC" ++ "\n        " := by
    decide
  refine ⟨⟨?_, ?_, ?_⟩, ⟨?_, ?_⟩, ⟨?_, ?_⟩⟩
  · intro h
    rw [MostSelling.get_data_order, h]
    decide
  · intro h
    rw [MostSelling.get_data_order]
    cases hs : f.sort_by with
    | none => decide
    | some s =>
      have hsA : s ≠ "Amount" := by
        intro he
        exact h (by rw [hs, he])
      by_cases hse : s = ""
      · subst hse
        decide
      · simp only [strOrDefault, if_neg hse, if_neg hsA]
  · refine ⟨MostSelling.q1A ++ (MostSelling.get_data f).ig_condition ++
      "\n\n        GROUP BY sii.item_code, i.item_name, i.item_group, i.safety_stock\n\n        ",
      "\n        " ++ (MostSelling.get_data f).limit_clause ++ "\n    ", ?_⟩
    rw [MostSelling.get_data_query, hsplitB, hdesc]
    apply string_ext
    simp only [data_append_eq, List.append_assoc]
  · intro n h
    have hlc : (MostSelling.get_data f).limit_clause = "LIMIT " ++ intStr n := by
      rw [MostSelling.get_data_limit_clause, h]
    refine ⟨hlc, MostSelling.q1A ++ (MostSelling.get_data f).ig_condition ++
      MostSelling.q1B ++ (MostSelling.get_data f).order_by_field ++
      " DESC\n        ", "\n    ", ?_⟩
    rw [MostSelling.get_data_query, hlc]
  · intro h
    have hlc : (MostSelling.get_data f).limit_clause = "" := by
      rw [MostSelling.get_data_limit_clause, h]
    refine ⟨hlc, ?_⟩
    rw [MostSelling.get_data_query, hlc]
    rcases MostSelling.get_data_order_cases f with ho | ho <;> rw [ho] <;>
      by_cases hig : truthy f.item_group = true
    · rw [MostSelling.get_data_ig, if_pos hig]; decide
    · rw [MostSelling.get_data_ig, if_neg hig]
      decide
    · rw [MostSelling.get_data_ig, if_pos hig]; decide
    · rw [MostSelling.get_data_ig, if_neg hig]
      decide
  · intro v hv hne
    have htr : truthy f.item_group = true := by
      rw [hv]
      exact truthy_some_iff.mpr hne
    have hig : (MostSelling.get_data f).ig_condition =
        " AND i.item_group = %(item_group)s " := by
      rw [MostSelling.get_data_ig, if_pos htr]
    refine ⟨hig, ?_, MostSelling.q1A,
      MostSelling.q1B ++ (MostSelling.get_data f).order_by_field ++
        " DESC\n        " ++ (MostSelling.get_data f).limit_clause ++
        "\n    ", ?_⟩
    · rw [MostSelling.get_data_params, if_pos htr, hv]
      rfl
    · rw [MostSelling.get_data_query, hig]
      apply string_ext
      simp only [data_append_eq, List.append_assoc]
  · intro h
    have htr : truthy f.item_group = false := truthy_eq_false_iff.mpr h
    have hig : (MostSelling.get_data f).ig_condition = "" := by
      rw [MostSelling.get_data_ig, htr]
      rfl
    have hparams : (MostSelling.get_data f).params = [] := by
      rw [MostSelling.get_data_params, htr]
      rfl
    have hnop : ∀ c ∈ (MostSelling.get_data f).query.data, c ≠ '%' := by
      intro c hc
      rw [MostSelling.get_data_query, hig] at hc
      simp only [data_append_eq, List.append_assoc, List.mem_append] at hc
      rcases hc with hc | hc | hc | hc | hc | hc
      · exact not_mem_of_charsContain_single _ (by decide) c hc
      · exact absurd hc (List.not_mem_nil c)
      · exact not_mem_of_charsContain_single _ (by decide) c hc
      · rcases MostSelling.get_data_order_cases f with ho | ho <;>
          rw [ho] at hc
        · exact (by decide : ∀ c ∈ ("total_amount" : String).data, c ≠ '%')
            c hc
        · exact (by decide : ∀ c ∈ ("total_qty" : String).data, c ≠ '%') c hc
      · exact (by decide : ∀ c ∈ (" DESC\n        " : String).data, c ≠ '%')
          c hc
      · rcases hc with hc | hc
        · cases hrl : MostSelling.resolve_limit f.limit with
          | none =>
            rw [MostSelling.get_data_limit_clause, hrl] at hc
            exact absurd hc (List.not_mem_nil c)
          | some n =>
            rw [MostSelling.get_data_limit_clause, hrl] at hc
            rcases List.mem_append.mp (by
              rw [← data_append_eq]; exact hc) with hc2 | hc2
            · exact (by decide : ∀ c ∈ ("LIMIT " : String).data, c ≠ '%')
                c hc2
            · rcases intStr_chars n c hc2 with hm | hm
              · subst hm; decide
              · exact isDigit_ne_percent hm
        · exact (by decide : ∀ c ∈ ("\n    " : String).data, c ≠ '%') c hc
    refine ⟨hig, hparams, hnop, ?_⟩
    rintro ⟨pre, post, he⟩
    have hmem : '%' ∈ (MostSelling.get_data f).query.data := by
      rw [he]
      simp only [data_append_eq, List.append_assoc, List.mem_append]
      right; left
      decide
    exact hnop '%' hmem rfl

theorem claim_C4_witness :
    ((MostSelling.exampleFilters.sort_by = some "Amount" →
        (MostSelling.get_data MostSelling.exampleFilters).order_by_field =
          "total_amount") ∧
     (MostSelling.exampleFilters.sort_by ≠ some "Amount" →
        (MostSelling.get_data MostSelling.exampleFilters).order_by_field =
          "total_qty") ∧
     (∃ pre post, (MostSelling.get_data MostSelling.exampleFilters).query =
        pre ++ ("ORDER BY " ++
          (MostSelling.get_data MostSelling.exampleFilters).order_by_field ++
          " DESC") ++ post)) ∧
    ((∀ n : Int,
        MostSelling.resolve_limit MostSelling.exampleFilters.limit = some n →
        (MostSelling.get_data MostSelling.exampleFilters).limit_clause =
          "LIMIT " ++ intStr n ∧
        ∃ pre post, (MostSelling.get_data MostSelling.exampleFilters).query =
          pre ++ ("LIMIT " ++ intStr n) ++ post) ∧
     (MostSelling.resolve_limit MostSelling.exampleFilters.limit = none →
        (MostSelling.get_data MostSelling.exampleFilters).limit_clause = "" ∧
        strContains (MostSelling.get_data MostSelling.exampleFilters).query
          "LIMIT" = false)) ∧
    ((∀ v : String, MostSelling.exampleFilters.item_group = some v → v ≠ "" →
        (MostSelling.get_data MostSelling.exampleFilters).ig_condition =
          " AND i.item_group = %(item_group)s " ∧
        (MostSelling.get_data MostSelling.exampleFilters).params =
          [("item_group", v)] ∧
        ∃ pre post, (MostSelling.get_data MostSelling.exampleFilters).query =
          pre ++ " AND i.item_group = %(item_group)s " ++ post) ∧
     ((MostSelling.exampleFilters.item_group = none ∨
       MostSelling.exampleFilters.item_group = some "") →
        (MostSelling.get_data MostSelling.exampleFilters).ig_condition = "" ∧
        (MostSelling.get_data MostSelling.exampleFilters).params = [] ∧
        (∀ c ∈ (MostSelling.get_data MostSelling.exampleFilters).query.data,
          c ≠ '%') ∧
        ¬∃ pre post,
          (MostSelling.get_data MostSelling.exampleFilters).query =
            pre ++ " AND i.item_group = %(item_group)s " ++ post)) :=
  claim_C4 MostSelling.exampleFilters

/-! ## Claim C7: enum defaults (corrected) -/

/-- C7 counterexample: the claim says an invalid supplied `value_quantity`
falls back to the default Value, i.e. aggregates `si_item.amount`; but with
`value_quantity = "Bogus"` the built query aggregates `si_item.qty`. -/
theorem claim_C7_counterexample :
    ("Bogus" ∉ (["Value", "Qty"] : List String)) ∧
    ∃ q : SalesAnalytic.Query2,
      SalesAnalytic.get_aggregated_query
        { from_date := some ⟨2025, 1, 1⟩, to_date := some ⟨2025, 1, 31⟩,
          value_quantity := some "Bogus" } [] = Except.ok q ∧
      q.value_expr = "si_item.qty" ∧ q.value_expr ≠ "si_item.amount" :=
  ⟨by decide, _, rfl, rfl, by decide⟩

/-- C7 (amended): a supplied `sort_by` outside {Quantity, Amount} orders by
`total_qty` (the Quantity default), and an absent `sort_by` defaults to
"Quantity"; a period outside the enumerated set gets the Monthly increment
(`increments.get(period, 1) = 1`); but `value_quantity` only defaults to
Value (aggregating `si_item.amount`) when it is absent — any supplied value
other than "Value", valid or not, aggregates `si_item.qty`. -/
theorem claim_C7 :
    (∀ (f : MostSelling.Filters) (s : String),
       f.sort_by = some s → s ∉ (["Quantity", "Amount"] : List String) →
       (MostSelling.get_data f).order_by_field = "total_qty") ∧
    (∀ f : MostSelling.Filters, f.sort_by = none →
       (MostSelling.get_data f).sort_by = "Quantity" ∧
       (MostSelling.get_data f).order_by_field = "total_qty") ∧
    ((∀ s : String, s ∉ SalesAnalytic.allowed_periods →
        SalesAnalytic.periodStep s = 1) ∧
     SalesAnalytic.periodStep "Monthly" = 1) ∧
    (∀ (f : SalesAnalytic.Filters) (plist : List SalesAnalytic.Bucket)
       (s : String) (q : SalesAnalytic.Query2),
       f.value_quantity = some s → s ≠ "Value" →
       SalesAnalytic.get_aggregated_query f plist = Except.ok q →
       q.value_expr = "si_item.qty") ∧
    (∀ (f : SalesAnalytic.Filters) (plist : List SalesAnalytic.Bucket)
       (q : SalesAnalytic.Query2),
       f.value_quantity = none →
       SalesAnalytic.get_aggregated_query f plist = Except.ok q →
       q.value_expr = "si_item.amount") := by
  refine ⟨?_, ?_, ⟨?_, by decide⟩, ?_, ?_⟩
  · intro f s hsb hnot
    rw [MostSelling.get_data_order, hsb]
    have hsA : s ≠ "Amount" := by
      intro he
      exact hnot (by rw [he]; decide)
    by_cases hse : s = ""
    · subst hse
      decide
    · simp only [strOrDefault, if_neg hse, if_neg hsA]
  · intro f hnone
    constructor
    · rw [MostSelling.get_data_sort_by, hnone]
      rfl
    · rw [MostSelling.get_data_order, hnone]
      decide
  · intro s hs
    have h1 : s ≠ "Monthly" := fun he => hs (by rw [he]; decide)
    have h2 : s ≠ "Quarterly" := fun he => hs (by rw [he]; decide)
    have h3 : s ≠ "Half Yearly" := fun he => hs (by rw [he]; decide)
    have h4 : s ≠ "Yearly" := fun he => hs (by rw [he]; decide)
    have e1 : (s == "Monthly") = false := beq_eq_false_iff_ne.mpr h1
    have e2 : (s == "Quarterly") = false := beq_eq_false_iff_ne.mpr h2
    have e3 : (s == "Half Yearly") = false := beq_eq_false_iff_ne.mpr h3
    have e4 : (s == "Yearly") = false := beq_eq_false_iff_ne.mpr h4
    simp only [SalesAnalytic.periodStep, SalesAnalytic.increments,
      List.lookup, e1, e2, e3, e4]
    rfl
  · intro f plist s q hvq hsne hok
    obtain ⟨ofd, otd, oper, ovq, oc, ocu, ocg, osg, ot, oig, oi, ob⟩ := f
    dsimp only at hvq
    subst hvq
    cases ofd with
    | none =>
      simp only [SalesAnalytic.get_aggregated_query] at hok
      exact Except.noConfusion hok
    | some fd =>
      cases otd with
      | none =>
        simp only [SalesAnalytic.get_aggregated_query] at hok
        exact Except.noConfusion hok
      | some td =>
        simp only [SalesAnalytic.get_aggregated_query] at hok
        cases hok
        dsimp only
        rw [show Option.getD (some s) "Value" = s from rfl, if_neg hsne]
  · intro f plist q hvq hok
    obtain ⟨ofd, otd, oper, ovq, oc, ocu, ocg, osg, ot, oig, oi, ob⟩ := f
    dsimp only at hvq
    subst hvq
    cases ofd with
    | none =>
      simp only [SalesAnalytic.get_aggregated_query] at hok
      exact Except.noConfusion hok
    | some fd =>
      cases otd with
      | none =>
        simp only [SalesAnalytic.get_aggregated_query] at hok
        exact Except.noConfusion hok
      | some td =>
        simp only [SalesAnalytic.get_aggregated_query] at hok
        cases hok
        dsimp only
        rw [show Option.getD (none : Option String) "Value" = "Value" from
          rfl, if_pos rfl]

theorem claim_C7_witness :
    (({ sort_by := some "amount" } : MostSelling.Filters).sort_by =
      some "amount") ∧
    ("amount" ∉ (["Quantity", "Amount"] : List String)) ∧
    (MostSelling.get_data { sort_by := some "amount" }).order_by_field =
      "total_qty" :=
  ⟨rfl, by decide,
   claim_C7.1 { sort_by := some "amount" } "amount" rfl (by decide)⟩

/-! ## Claims C5 and C8: report 2 validation and query construction -/

theorem head_p_from (t : String) : ("p_from_" ++ t).data.head? = some 'p' := by
  rw [data_append_eq]
  rfl

theorem head_p_to (t : String) : ("p_to_" ++ t).data.head? = some 'p' := by
  rw [data_append_eq]
  rfl

namespace SalesAnalytic

theorem mem_optCond {x s : String} {b : Bool} :
    x ∈ optCond b s ↔ b = true ∧ x = s := by
  cases b <;> simp [optCond]

theorem mem_optParam {x : String} {pv : PVal} {b : Bool} {k : String}
    {v : Option String} :
    (x, pv) ∈ optParam b k v ↔
      b = true ∧ x = k ∧ pv = PVal.str (v.getD "") := by
  cases b <;> simp [optParam]

theorem no_pparam_mem {plist : List Bucket} {name : String} {pv : PVal}
    (hname : name.data.head? ≠ some 'p')
    (h : (name, pv) ∈ plist.enum.flatMap (fun ip =>
        [("p_from_" ++ natStr ip.1, PVal.date ip.2.from_date),
         ("p_to_" ++ natStr ip.1, PVal.date ip.2.to_date)])) :
    False := by
  rcases List.mem_flatMap.mp h with ⟨ip, _, hmem⟩
  rcases List.mem_cons.mp hmem with hm | hm
  · have hfst : name = "p_from_" ++ natStr ip.1 := congrArg Prod.fst hm
    exact hname (by rw [hfst, head_p_from])
  · rcases List.mem_cons.mp hm with hm2 | hm2
    · have hfst : name = "p_to_" ++ natStr ip.1 := congrArg Prod.fst hm2
      exact hname (by rw [hfst, head_p_to])
    · exact absurd hm2 (List.not_mem_nil _)

/-- Shape of the query built by `get_aggregated_rows` when both dates are
present: the exact conditions list and parameter list. -/
theorem query2_shape (f : Filters) (plist : List Bucket) (fd td : Date)
    (hfd : f.from_date = some fd) (htd : f.to_date = some td) :
    ∃ q : Query2, get_aggregated_query f plist = Except.ok q ∧
      q.conditions =
        ["si.docstatus = 1",
         "si.posting_date BETWEEN %(from_date)s AND %(to_date)s"]
        ++ optCond (truthy f.company) "si.company = %(company)s"
        ++ optCond (truthy f.customer) "si.customer = %(customer)s"
        ++ optCond (truthy f.customer_group) "c.customer_group = %(customer_group)s"
        ++ optCond (truthy f.custom_sub_group) "c.custom_sub_group = %(custom_sub_group)s"
        ++ optCond (truthy f.territory) "c.territory = %(territory)s"
        ++ optCond (truthy f.item_group) "i.item_group = %(item_group)s"
        ++ optCond (truthy f.item) "si_item.item_code = %(item)s"
        ++ optCond (truthy f.brand) "i.brand = %(brand)s" ∧
      q.params =
        [("from_date", PVal.date fd), ("to_date", PVal.date td)]
        ++ optParam (truthy f.company) "company" f.company
        ++ optParam (truthy f.customer) "customer" f.customer
        ++ optParam (truthy f.customer_group) "customer_group" f.customer_group
        ++ optParam (truthy f.custom_sub_group) "custom_sub_group" f.custom_sub_group
        ++ optParam (truthy f.territory) "territory" f.territory
        ++ optParam (truthy f.item_group) "item_group" f.item_group
        ++ optParam (truthy f.item) "item" f.item
        ++ optParam (truthy f.brand) "brand" f.brand
        ++ plist.enum.flatMap (fun ip =>
             [("p_from_" ++ natStr ip.1, PVal.date ip.2.from_date),
              ("p_to_" ++ natStr ip.1, PVal.date ip.2.to_date)]) := by
  obtain ⟨ofd, otd, oper, ovq, oc, ocu, ocg, osg, ot, oig, oi, ob⟩ := f
  dsimp only at hfd htd ⊢
  subst hfd
  subst htd
  exact ⟨_, rfl, rfl, rfl⟩

end SalesAnalytic

/-- C8: for every filter set with both dates present, the query built by
`get_aggregated_rows` carries the docstatus and overall posting-date-range
conditions with the date parameters bound; and for each of the eight
optional filters, the corresponding bound equality condition and named
parameter are present exactly when the filter is given (truthy) — an
absent or empty optional filter adds no condition and binds no parameter,
and never produces an error. -/
theorem claim_C8 :
    ∀ (f : SalesAnalytic.Filters) (plist : List SalesAnalytic.Bucket)
      (fd td : Date),
      f.from_date = some fd → f.to_date = some td →
      ∃ q : SalesAnalytic.Query2,
        SalesAnalytic.get_aggregated_query f plist = Except.ok q ∧
        "si.docstatus = 1" ∈ q.conditions ∧
        "si.posting_date BETWEEN %(from_date)s AND %(to_date)s" ∈
          q.conditions ∧
        ("from_date", SalesAnalytic.PVal.date fd) ∈ q.params ∧
        ("to_date", SalesAnalytic.PVal.date td) ∈ q.params ∧
        ((∀ v : String, f.company = some v → v ≠ "" →
            "si.company = %(company)s" ∈ q.conditions ∧
            ("company", SalesAnalytic.PVal.str v) ∈ q.params) ∧
         ((f.company = none ∨ f.company = some "") →
            "si.company = %(company)s" ∉ q.conditions ∧
            ∀ pv, ("company", pv) ∉ q.params)) ∧
        ((∀ v : String, f.customer = some v → v ≠ "" →
            "si.customer = %(customer)s" ∈ q.conditions ∧
            ("customer", SalesAnalytic.PVal.str v) ∈ q.params) ∧
         ((f.customer = none ∨ f.customer = some "") →
            "si.customer = %(customer)s" ∉ q.conditions ∧
            ∀ pv, ("customer", pv) ∉ q.params)) ∧
        ((∀ v : String, f.customer_group = some v → v ≠ "" →
            "c.customer_group = %(customer_group)s" ∈ q.conditions ∧
            ("customer_group", SalesAnalytic.PVal.str v) ∈ q.params) ∧
         ((f.customer_group = none ∨ f.customer_group = some "") →
            "c.customer_group = %(customer_group)s" ∉ q.conditions ∧
            ∀ pv, ("customer_group", pv) ∉ q.params)) ∧
        ((∀ v : String, f.custom_sub_group = some v → v ≠ "" →
            "c.custom_sub_group = %(custom_sub_group)s" ∈ q.conditions ∧
            ("custom_sub_group", SalesAnalytic.PVal.str v) ∈ q.params) ∧
         ((f.custom_sub_group = none ∨ f.custom_sub_group = some "") →
            "c.custom_sub_group = %(custom_sub_group)s" ∉ q.conditions ∧
            ∀ pv, ("custom_sub_group", pv) ∉ q.params)) ∧
        ((∀ v : String, f.territory = some v → v ≠ "" →
            "c.territory = %(territory)s" ∈ q.conditions ∧
            ("territory", SalesAnalytic.PVal.str v) ∈ q.params) ∧
         ((f.territory = none ∨ f.territory = some "") →
            "c.territory = %(territory)s" ∉ q.conditions ∧
            ∀ pv, ("territory", pv) ∉ q.params)) ∧
        ((∀ v : String, f.item_group = some v → v ≠ "" →
            "i.item_group = %(item_group)s" ∈ q.conditions ∧
            ("item_group", SalesAnalytic.PVal.str v) ∈ q.params) ∧
         ((f.item_group = none ∨ f.item_group = some "") →
            "i.item_group = %(item_group)s" ∉ q.conditions ∧
            ∀ pv, ("item_group", pv) ∉ q.params)) ∧
        ((∀ v : String, f.item = some v → v ≠ "" →
            "si_item.item_code = %(item)s" ∈ q.conditions ∧
            ("item", SalesAnalytic.PVal.str v) ∈ q.params) ∧
         ((f.item = none ∨ f.item = some "") →
            "si_item.item_code = %(item)s" ∉ q.conditions ∧
            ∀ pv, ("item", pv) ∉ q.params)) ∧
        ((∀ v : String, f.brand = some v → v ≠ "" →
            "i.brand = %(brand)s" ∈ q.conditions ∧
            ("brand", SalesAnalytic.PVal.str v) ∈ q.params) ∧
         ((f.brand = none ∨ f.brand = some "") →
            "i.brand = %(brand)s" ∉ q.conditions ∧
            ∀ pv, ("brand", pv) ∉ q.params)) := by
  intro f plist fd td hfd htd
  obtain ⟨q, hq, hconds, hparams⟩ :=
    SalesAnalytic.query2_shape f plist fd td hfd htd
  refine ⟨q, hq, ?_, ?_, ?_, ?_, ?_, ?_, ?_, ?_, ?_, ?_, ?_, ?_⟩
  · rw [hconds]
    simp [List.mem_append, List.mem_cons]
  · rw [hconds]
    simp [List.mem_append, List.mem_cons]
  · rw [hparams]
    simp [List.mem_append, List.mem_cons]
  · rw [hparams]
    simp [List.mem_append, List.mem_cons]
  · constructor
    · intro v hv hne
      have htr : truthy f.company = true := by
        rw [hv]
        exact truthy_some_iff.mpr hne
      constructor
      · rw [hconds]
        simp [List.mem_append, List.mem_cons, SalesAnalytic.mem_optCond, htr]
      · rw [hparams]
        simp [List.mem_append, List.mem_cons, SalesAnalytic.mem_optParam,
          hv, truthy_some_iff.mpr hne]
    · intro habs
      have htr : truthy f.company = false := truthy_eq_false_iff.mpr habs
      constructor
      · intro hmem
        rw [hconds] at hmem
        simp [List.mem_append, List.mem_cons, SalesAnalytic.mem_optCond,
          htr] at hmem
      · intro pv hpv
        rw [hparams] at hpv
        rcases List.mem_append.mp hpv with h | h
        · simp [List.mem_append, List.mem_cons, SalesAnalytic.mem_optParam,
            Prod.mk.injEq, htr] at h
        · exact SalesAnalytic.no_pparam_mem (by decide) h
  · constructor
    · intro v hv hne
      have htr : truthy f.customer = true := by
        rw [hv]
        exact truthy_some_iff.mpr hne
      constructor
      · rw [hconds]
        simp [List.mem_append, List.mem_cons, SalesAnalytic.mem_optCond, htr]
      · rw [hparams]
        simp [List.mem_append, List.mem_cons, SalesAnalytic.mem_optParam,
          hv, truthy_some_iff.mpr hne]
    · intro habs
      have htr : truthy f.customer = false := truthy_eq_false_iff.mpr habs
      constructor
      · intro hmem
        rw [hconds] at hmem
        simp [List.mem_append, List.mem_cons, SalesAnalytic.mem_optCond,
          htr] at hmem
      · intro pv hpv
        rw [hparams] at hpv
        rcases List.mem_append.mp hpv with h | h
        · simp [List.mem_append, List.mem_cons, SalesAnalytic.mem_optParam,
            Prod.mk.injEq, htr] at h
        · exact SalesAnalytic.no_pparam_mem (by decide) h
  · constructor
    · intro v hv hne
      have htr : truthy f.customer_group = true := by
        rw [hv]
        exact truthy_some_iff.mpr hne
      constructor
      · rw [hconds]
        simp [List.mem_append, List.mem_cons, SalesAnalytic.mem_optCond, htr]
      · rw [hparams]
        simp [List.mem_append, List.mem_cons, SalesAnalytic.mem_optParam,
          hv, truthy_some_iff.mpr hne]
    · intro habs
      have htr : truthy f.customer_group = false := truthy_eq_false_iff.mpr habs
      constructor
      · intro hmem
        rw [hconds] at hmem
        simp [List.mem_append, List.mem_cons, SalesAnalytic.mem_optCond,
          htr] at hmem
      · intro pv hpv
        rw [hparams] at hpv
        rcases List.mem_append.mp hpv with h | h
        · simp [List.mem_append, List.mem_cons, SalesAnalytic.mem_optParam,
            Prod.mk.injEq, htr] at h
        · exact SalesAnalytic.no_pparam_mem (by decide) h
  · constructor
    · intro v hv hne
      have htr : truthy f.custom_sub_group = true := by
        rw [hv]
        exact truthy_some_iff.mpr hne
      constructor
      · rw [hconds]
        simp [List.mem_append, List.mem_cons, SalesAnalytic.mem_optCond, htr]
      · rw [hparams]
        simp [List.mem_append, List.mem_cons, SalesAnalytic.mem_optParam,
          hv, truthy_some_iff.mpr hne]
    · intro habs
      have htr : truthy f.custom_sub_group = false := truthy_eq_false_iff.mpr habs
      constructor
      · intro hmem
        rw [hconds] at hmem
        simp [List.mem_append, List.mem_cons, SalesAnalytic.mem_optCond,
          htr] at hmem
      · intro pv hpv
        rw [hparams] at hpv
        rcases List.mem_append.mp hpv with h | h
        · simp [List.mem_append, List.mem_cons, SalesAnalytic.mem_optParam,
            Prod.mk.injEq, htr] at h
        · exact SalesAnalytic.no_pparam_mem (by decide) h
  · constructor
    · intro v hv hne
      have htr : truthy f.territory = true := by
        rw [hv]
        exact truthy_some_iff.mpr hne
      constructor
      · rw [hconds]
        simp [List.mem_append, List.mem_cons, SalesAnalytic.mem_optCond, htr]
      · rw [hparams]
        simp [List.mem_append, List.mem_cons, SalesAnalytic.mem_optParam,
          hv, truthy_some_iff.mpr hne]
    · intro habs
      have htr : truthy f.territory = false := truthy_eq_false_iff.mpr habs
      constructor
      · intro hmem
        rw [hconds] at hmem
        simp [List.mem_append, List.mem_cons, SalesAnalytic.mem_optCond,
          htr] at hmem
      · intro pv hpv
        rw [hparams] at hpv
        rcases List.mem_append.mp hpv with h | h
        · simp [List.mem_append, List.mem_cons, SalesAnalytic.mem_optParam,
            Prod.mk.injEq, htr] at h
        · exact SalesAnalytic.no_pparam_mem (by decide) h
  · constructor
    · intro v hv hne
      have htr : truthy f.item_group = true := by
        rw [hv]
        exact truthy_some_iff.mpr hne
      constructor
      · rw [hconds]
        simp [List.mem_append, List.mem_cons, SalesAnalytic.mem_optCond, htr]
      · rw [hparams]
        simp [List.mem_append, List.mem_cons, SalesAnalytic.mem_optParam,
          hv, truthy_some_iff.mpr hne]
    · intro habs
      have htr : truthy f.item_group = false := truthy_eq_false_iff.mpr habs
      constructor
      · intro hmem
        rw [hconds] at hmem
        simp [List.mem_append, List.mem_cons, SalesAnalytic.mem_optCond,
          htr] at hmem
      · intro pv hpv
        rw [hparams] at hpv
        rcases List.mem_append.mp hpv with h | h
        · simp [List.mem_append, List.mem_cons, SalesAnalytic.mem_optParam,
            Prod.mk.injEq, htr] at h
        · exact SalesAnalytic.no_pparam_mem (by decide) h
  · constructor
    · intro v hv hne
      have htr : truthy f.item = true := by
        rw [hv]
        exact truthy_some_iff.mpr hne
      constructor
      · rw [hconds]
        simp [List.mem_append, List.mem_cons, SalesAnalytic.mem_optCond, htr]
      · rw [hparams]
        simp [List.mem_append, List.mem_cons, SalesAnalytic.mem_optParam,
          hv, truthy_some_iff.mpr hne]
    · intro habs
      have htr : truthy f.item = false := truthy_eq_false_iff.mpr habs
      constructor
      · intro hmem
        rw [hconds] at hmem
        simp [List.mem_append, List.mem_cons, SalesAnalytic.mem_optCond,
          htr] at hmem
      · intro pv hpv
        rw [hparams] at hpv
        rcases List.mem_append.mp hpv with h | h
        · simp [List.mem_append, List.mem_cons, SalesAnalytic.mem_optParam,
            Prod.mk.injEq, htr] at h
        · exact SalesAnalytic.no_pparam_mem (by decide) h
  · constructor
    · intro v hv hne
      have htr : truthy f.brand = true := by
        rw [hv]
        exact truthy_some_iff.mpr hne
      constructor
      · rw [hconds]
        simp [List.mem_append, List.mem_cons, SalesAnalytic.mem_optCond, htr]
      · rw [hparams]
        simp [List.mem_append, List.mem_cons, SalesAnalytic.mem_optParam,
          hv, truthy_some_iff.mpr hne]
    · intro habs
      have htr : truthy f.brand = false := truthy_eq_false_iff.mpr habs
      constructor
      · intro hmem
        rw [hconds] at hmem
        simp [List.mem_append, List.mem_cons, SalesAnalytic.mem_optCond,
          htr] at hmem
      · intro pv hpv
        rw [hparams] at hpv
        rcases List.mem_append.mp hpv with h | h
        · simp [List.mem_append, List.mem_cons, SalesAnalytic.mem_optParam,
            Prod.mk.injEq, htr] at h
        · exact SalesAnalytic.no_pparam_mem (by decide) h

/-- C5: `validate_filters` raises exactly when a date is missing, the range
is reversed, or a supplied period is outside the enumeration; equal dates
pass; and on a validation error, `execute` returns that very error for
every query runner, so no query is consulted and no partial output is
produced. -/
theorem claim_C5 :
    ∀ f : SalesAnalytic.Filters,
      ((∃ e, SalesAnalytic.validate_filters f = Except.error e) ↔
        (f.from_date = none ∨ f.to_date = none ∨
         (∃ fd td, f.from_date = some fd ∧ f.to_date = some td ∧ td < fd) ∨
         (∃ p, f.period = some p ∧ p ∉ SalesAnalytic.allowed_periods))) ∧
      (∀ d : Date, f.from_date = some d → f.to_date = some d →
        (∀ p, f.period = some p → p ∈ SalesAnalytic.allowed_periods) →
        SalesAnalytic.validate_filters f = Except.ok ()) ∧
      (∀ e, SalesAnalytic.validate_filters f = Except.error e →
        ∀ runQuery, SalesAnalytic.execute f runQuery = Except.error e) := by
  intro f
  obtain ⟨ofd, otd, oper, ovq, oc, ocu, ocg, osg, ot, oig, oi, ob⟩ := f
  refine ⟨?_, ?_, ?_⟩
  · dsimp only
    cases ofd with
    | none =>
      constructor
      · intro _
        exact Or.inl rfl
      · intro _
        exact ⟨_, rfl⟩
    | some fd =>
      cases otd with
      | none =>
        constructor
        · intro _
          exact Or.inr (Or.inl rfl)
        · intro _
          exact ⟨_, rfl⟩
      | some td =>
        simp only [SalesAnalytic.validate_filters]
        by_cases hlt : td < fd
        · rw [if_pos hlt]
          constructor
          · intro _
            exact Or.inr (Or.inr (Or.inl ⟨fd, td, rfl, rfl, hlt⟩))
          · intro _
            exact ⟨_, rfl⟩
        · rw [if_neg hlt]
          cases oper with
          | none =>
            constructor
            · rintro ⟨e, he⟩
              exact Except.noConfusion he
            · rintro (h | h | ⟨fd2, td2, h1, h2, h3⟩ | ⟨p, hp, _⟩)
              · exact Option.noConfusion h
              · exact Option.noConfusion h
              · rw [Option.some.injEq] at h1 h2
                subst h1
                subst h2
                exact absurd h3 hlt
              · exact Option.noConfusion hp
          | some p =>
            dsimp only
            by_cases hp : p ∈ SalesAnalytic.allowed_periods
            · rw [if_pos hp]
              constructor
              · rintro ⟨e, he⟩
                exact Except.noConfusion he
              · rintro (h | h | ⟨fd2, td2, h1, h2, h3⟩ | ⟨p2, hp2, hnp⟩)
                · exact Option.noConfusion h
                · exact Option.noConfusion h
                · rw [Option.some.injEq] at h1 h2
                  subst h1
                  subst h2
                  exact absurd h3 hlt
                · rw [Option.some.injEq] at hp2
                  subst hp2
                  exact absurd hp hnp
            · rw [if_neg hp]
              constructor
              · intro _
                exact Or.inr (Or.inr (Or.inr ⟨p, rfl, hp⟩))
              · intro _
                exact ⟨_, rfl⟩
  · intro d hfd htd hper
    dsimp only at hfd htd hper
    subst hfd
    subst htd
    simp only [SalesAnalytic.validate_filters]
    have hnlt : ¬d < d := by
      rw [Date.not_lt]
      exact Date.le_refl d
    rw [if_neg hnlt]
    cases oper with
    | none => rfl
    | some p =>
      dsimp only
      rw [if_pos (hper p rfl)]
  · intro e he runQuery
    unfold SalesAnalytic.execute
    rw [he]

theorem claim_C5_witness :
    (({ from_date := some ⟨2025, 5, 1⟩, to_date := some ⟨2025, 5, 1⟩,
        period := some "Monthly" } : SalesAnalytic.Filters).from_date =
      some ⟨2025, 5, 1⟩) ∧
    (({ from_date := some ⟨2025, 5, 1⟩, to_date := some ⟨2025, 5, 1⟩,
        period := some "Monthly" } : SalesAnalytic.Filters).to_date =
      some ⟨2025, 5, 1⟩) ∧
    SalesAnalytic.validate_filters
      { from_date := some ⟨2025, 5, 1⟩, to_date := some ⟨2025, 5, 1⟩,
        period := some "Monthly" } = Except.ok () :=
  ⟨rfl, rfl,
   (claim_C5 { from_date := some ⟨2025, 5, 1⟩,
               to_date := some ⟨2025, 5, 1⟩,
               period := some "Monthly" }).2.1 ⟨2025, 5, 1⟩ rfl rfl
     (fun p hp => by cases hp; decide)⟩

theorem claim_C8_witness :
    SalesAnalytic.exampleFilters2.from_date = some ⟨2025, 1, 15⟩ ∧
    SalesAnalytic.exampleFilters2.to_date = some ⟨2025, 12, 31⟩ ∧
    (∃ q : SalesAnalytic.Query2,
      SalesAnalytic.get_aggregated_query SalesAnalytic.exampleFilters2 [] = Except.ok q ∧
      "si.docstatus = 1" ∈ q.conditions ∧
      "si.posting_date BETWEEN %(from_date)s AND %(to_date)s" ∈
        q.conditions ∧
      ("from_date", SalesAnalytic.PVal.date ⟨2025, 1, 15⟩) ∈ q.params ∧
      ("to_date", SalesAnalytic.PVal.date ⟨2025, 12, 31⟩) ∈ q.params ∧
        ((∀ v : String, SalesAnalytic.exampleFilters2.company = some v → v ≠ "" →
            "si.company = %(company)s" ∈ q.conditions ∧
            ("company", SalesAnalytic.PVal.str v) ∈ q.params) ∧
         ((SalesAnalytic.exampleFilters2.company = none ∨ SalesAnalytic.exampleFilters2.company = some "") →
            "si.company = %(company)s" ∉ q.conditions ∧
            ∀ pv, ("company", pv) ∉ q.params)) ∧
        ((∀ v : String, SalesAnalytic.exampleFilters2.customer = some v → v ≠ "" →
            "si.customer = %(customer)s" ∈ q.conditions ∧
            ("customer", SalesAnalytic.PVal.str v) ∈ q.params) ∧
         ((SalesAnalytic.exampleFilters2.customer = none ∨ SalesAnalytic.exampleFilters2.customer = some "") →
            "si.customer = %(customer)s" ∉ q.conditions ∧
            ∀ pv, ("customer", pv) ∉ q.params)) ∧
        ((∀ v : String, SalesAnalytic.exampleFilters2.customer_group = some v → v ≠ "" →
            "c.customer_group = %(customer_group)s" ∈ q.conditions ∧
            ("customer_group", SalesAnalytic.PVal.str v) ∈ q.params) ∧
         ((SalesAnalytic.exampleFilters2.customer_group = none ∨ SalesAnalytic.exampleFilters2.customer_group = some "") →
            "c.customer_group = %(customer_group)s" ∉ q.conditions ∧
            ∀ pv, ("customer_group", pv) ∉ q.params)) ∧
        ((∀ v : String, SalesAnalytic.exampleFilters2.custom_sub_group = some v → v ≠ "" →
            "c.custom_sub_group = %(custom_sub_group)s" ∈ q.conditions ∧
            ("custom_sub_group", SalesAnalytic.PVal.str v) ∈ q.params) ∧
         ((SalesAnalytic.exampleFilters2.custom_sub_group = none ∨ SalesAnalytic.exampleFilters2.custom_sub_group = some "") →
            "c.custom_sub_group = %(custom_sub_group)s" ∉ q.conditions ∧
            ∀ pv, ("custom_sub_group", pv) ∉ q.params)) ∧
        ((∀ v : String, SalesAnalytic.exampleFilters2.territory = some v → v ≠ "" →
            "c.territory = %(territory)s" ∈ q.conditions ∧
            ("territory", SalesAnalytic.PVal.str v) ∈ q.params) ∧
         ((SalesAnalytic.exampleFilters2.territory = none ∨ SalesAnalytic.exampleFilters2.territory = some "") →
            "c.territory = %(territory)s" ∉ q.conditions ∧
            ∀ pv, ("territory", pv) ∉ q.params)) ∧
        ((∀ v : String, SalesAnalytic.exampleFilters2.item_group = some v → v ≠ "" →
            "i.item_group = %(item_group)s" ∈ q.conditions ∧
            ("item_group", SalesAnalytic.PVal.str v) ∈ q.params) ∧
         ((SalesAnalytic.exampleFilters2.item_group = none ∨ SalesAnalytic.exampleFilters2.item_group = some "") →
            "i.item_group = %(item_group)s" ∉ q.conditions ∧
            ∀ pv, ("item_group", pv) ∉ q.params)) ∧
        ((∀ v : String, SalesAnalytic.exampleFilters2.item = some v → v ≠ "" →
            "si_item.item_code = %(item)s" ∈ q.conditions ∧
            ("item", SalesAnalytic.PVal.str v) ∈ q.params) ∧
         ((SalesAnalytic.exampleFilters2.item = none ∨ SalesAnalytic.exampleFilters2.item = some "") →
            "si_item.item_code = %(item)s" ∉ q.conditions ∧
            ∀ pv, ("item", pv) ∉ q.params)) ∧
        ((∀ v : String, SalesAnalytic.exampleFilters2.brand = some v → v ≠ "" →
            "i.brand = %(brand)s" ∈ q.conditions ∧
            ("brand", SalesAnalytic.PVal.str v) ∈ q.params) ∧
         ((SalesAnalytic.exampleFilters2.brand = none ∨ SalesAnalytic.exampleFilters2.brand = some "") →
            "i.brand = %(brand)s" ∉ q.conditions ∧
            ∀ pv, ("brand", pv) ∉ q.params))) :=
  ⟨rfl, rfl,
   claim_C8 SalesAnalytic.exampleFilters2 [] ⟨2025, 1, 15⟩ ⟨2025, 12, 31⟩ rfl rfl⟩

/-! ## Lemmas about ordered-dict helpers and the row shaper -/

theorem lookup_upsert {α : Type} (k k' : String) (v : α) :
    ∀ l : List (String × α),
      List.lookup k (upsert k' v l) =
        if k = k' then some v else List.lookup k l := by
  intro l
  induction l with
  | nil =>
    by_cases h : k = k'
    · subst h
      simp [upsert, List.lookup]
    · simp [upsert, List.lookup, h, beq_eq_false_iff_ne.mpr h]
  | cons hd tl ih =>
    obtain ⟨a, b⟩ := hd
    simp only [upsert]
    by_cases hak : a = k'
    · subst hak
      rw [if_pos rfl]
      by_cases hka : k = a
      · subst hka
        simp [List.lookup]
      · simp [List.lookup, beq_eq_false_iff_ne.mpr hka, hka]
    · rw [if_neg hak]
      by_cases hka : k = a
      · subst hka
        simp [List.lookup, hak]
      · simp only [List.lookup, beq_eq_false_iff_ne.mpr hka]
        exact ih

theorem lookup_foldl_upsert {α : Type} (g : String → α) :
    ∀ (keys : List String) (init : List (String × α)) (k : String),
      List.lookup k
          (keys.foldl (fun acc k' => upsert k' (g k') acc) init) =
        if k ∈ keys then some (g k) else List.lookup k init := by
  intro keys
  induction keys with
  | nil => intro init k; simp
  | cons k0 ks ih =>
    intro init k
    simp only [List.foldl_cons]
    rw [ih]
    by_cases hk : k ∈ ks
    · rw [if_pos hk, if_pos (List.mem_cons_of_mem k0 hk)]
    · rw [if_neg hk, lookup_upsert]
      by_cases hk0 : k = k0
      · rw [if_pos hk0, if_pos (by rw [hk0]; exact List.mem_cons_self k0 ks),
          hk0]
      · rw [if_neg hk0, if_neg (by
          intro hm
          rcases List.mem_cons.mp hm with h | h
          exacts [hk0 h, hk h])]

theorem mem_fst_of_lookup {α : Type} {k : String} {v : α} :
    ∀ l : List (String × α), List.lookup k l = some v → k ∈ l.map Prod.fst := by
  intro l
  induction l with
  | nil => intro h; simp [List.lookup] at h
  | cons hd tl ih =>
    obtain ⟨a, b⟩ := hd
    intro h
    simp only [List.lookup] at h
    cases hbeq : (k == a) with
    | true =>
      rw [beq_iff_eq] at hbeq
      subst hbeq
      simp
    | false =>
      rw [hbeq] at h
      exact List.mem_cons_of_mem a (ih h)

theorem mem_upsert {α : Type} (k : String) (v : α) :
    ∀ (l : List (String × α)) (e : String × α),
      e ∈ upsert k v l → e ∈ l ∨ e = (k, v) := by
  intro l
  induction l with
  | nil =>
    intro e he
    simp [upsert] at he
    right
    simp [he]
  | cons hd tl ih =>
    obtain ⟨a, b⟩ := hd
    intro e he
    simp only [upsert] at he
    by_cases hak : a = k
    · rw [if_pos hak] at he
      rcases List.mem_cons.mp he with he | he
      · right
        rw [he, hak]
      · left
        exact List.mem_cons_of_mem _ he
    · rw [if_neg hak] at he
      rcases List.mem_cons.mp he with he | he
      · left
        rw [he]
        exact List.mem_cons_self _ _
      · rcases ih e he with h | h
        · left
          exact List.mem_cons_of_mem _ h
        · right
          exact h

theorem mem_upsertWith {α : Type} (k : String) (g : α → α) (dflt : α) :
    ∀ (l : List (String × α)) (e : String × α), e ∈ upsertWith k g dflt l →
      e ∈ l ∨ e = (k, g dflt) ∨ ∃ v, (k, v) ∈ l ∧ e = (k, g v) := by
  intro l
  induction l with
  | nil =>
    intro e he
    simp [upsertWith] at he
    right
    left
    simp [he]
  | cons hd tl ih =>
    obtain ⟨a, b⟩ := hd
    intro e he
    simp only [upsertWith] at he
    by_cases hak : a = k
    · subst hak
      rw [if_pos rfl] at he
      rcases List.mem_cons.mp he with he | he
      · right
        right
        exact ⟨b, List.mem_cons_self _ _, he⟩
      · left
        exact List.mem_cons_of_mem _ he
    · rw [if_neg hak] at he
      rcases List.mem_cons.mp he with he | he
      · left
        rw [he]
        exact List.mem_cons_self _ _
      · rcases ih e he with h | h | ⟨v, hv, hev⟩
        · left
          exact List.mem_cons_of_mem _ h
        · right
          left
          exact h
        · right
          right
          exact ⟨v, List.mem_cons_of_mem _ hv, hev⟩

namespace SalesAnalytic

theorem mkPeriods_eq_foldl (r : AggRow) (plist : List Bucket) :
    mkPeriods r plist =
      (plist.map (fun p => p.key)).foldl
        (fun acc k => upsert k (rowGet r.vals k 0) acc) [] := by
  rw [List.foldl_map]
  rfl

theorem lookup_mkPeriods (r : AggRow) (plist : List Bucket) {k : String}
    (hk : k ∈ plist.map (fun p => p.key)) :
    List.lookup k (mkPeriods r plist) = some (rowGet r.vals k 0) := by
  rw [mkPeriods_eq_foldl, lookup_foldl_upsert (fun k => rowGet r.vals k 0),
    if_pos hk]

theorem mem_keys_mkPeriods (r : AggRow) (plist : List Bucket) {k : String}
    (hk : k ∈ plist.map (fun p => p.key)) :
    k ∈ (mkPeriods r plist).map Prod.fst :=
  mem_fst_of_lookup (mkPeriods r plist) (lookup_mkPeriods r plist hk)

/-- Invariant of the nested grouping dict: every stored sub-group entry is
the periods/total pair of some aggregate row. -/
theorem buildNested_inv (plist : List Bucket) :
    ∀ (rows : List AggRow) (acc : List (String × List (String × SgData))),
      (∀ e ∈ acc, ∀ se ∈ e.2,
        ∃ r : AggRow, se.2 = SgData.mk (mkPeriods r plist) r.total) →
      ∀ e ∈ rows.foldl
          (fun nested r =>
            upsertWith (strOrDefault r.customer_group "Undefined")
              (fun sgs =>
                upsert (strOrDefault r.custom_sub_group "(No Sub Group)")
                  ⟨mkPeriods r plist, r.total⟩ sgs)
              [] nested)
          acc,
        ∀ se ∈ e.2,
          ∃ r : AggRow, se.2 = SgData.mk (mkPeriods r plist) r.total := by
  intro rows
  induction rows with
  | nil =>
    intro acc hacc
    simpa using hacc
  | cons r rs ih =>
    intro acc hacc
    simp only [List.foldl_cons]
    apply ih
    intro e he se hse
    rcases mem_upsertWith _ _ _ acc e he with h | h | ⟨v, hv, hev⟩
    · exact hacc e h se hse
    · rw [h] at hse
      dsimp only at hse
      rcases mem_upsert _ _ [] se hse with h2 | h2
      · exact absurd h2 (List.not_mem_nil se)
      · rw [h2]
        exact ⟨r, rfl⟩
    · rw [hev] at hse
      dsimp only at hse
      rcases mem_upsert _ _ v se hse with h2 | h2
      · exact hacc (strOrDefault r.customer_group "Undefined", v) hv se h2
      · rw [h2]
        exact ⟨r, rfl⟩

end SalesAnalytic

theorem takeWhile_append_all {α : Type} (p : α → Bool) :
    ∀ (l1 l2 : List α), (∀ x ∈ l1, p x = true) →
      (l1 ++ l2).takeWhile p = l1 ++ l2.takeWhile p := by
  intro l1
  induction l1 with
  | nil => intro l2 _; rfl
  | cons x xs ih =>
    intro l2 hall
    rw [List.cons_append, List.takeWhile_cons,
      if_pos (hall x (List.mem_cons_self x xs)), List.cons_append,
      ih l2 (fun y hy => hall y (List.mem_cons_of_mem x hy))]

namespace SalesAnalytic

/-- The rows of one customer-group block: the group row's measures are the
sums of its children's, children carry indent 1, and the group row's value
is defined for every period key (given the `buildNested` invariant). -/
theorem groupBlock_facts (plist : List Bucket)
    (blk : String × List (String × SgData))
    (hinv : ∀ se ∈ blk.2,
      ∃ r : AggRow, se.2 = SgData.mk (mkPeriods r plist) r.total) :
    ∃ g : DisplayRow, groupBlock blk = g :: blk.2.map sgRow ∧
      g.customer_group = blk.1 ∧ g.custom_sub_group = "" ∧ g.indent = 0 ∧
      (∀ c ∈ blk.2.map sgRow, c.indent = 1) ∧
      g.total = ((blk.2.map sgRow).map (fun c => c.total)).sum ∧
      ∀ p ∈ plist, rowGet g.vals p.key 0 =
        ((blk.2.map sgRow).map (fun c => rowGet c.vals p.key 0)).sum := by
  refine ⟨_, rfl, rfl, rfl, rfl, ?_, ?_, ?_⟩
  · intro c hc
    rcases List.mem_map.mp hc with ⟨s, _, hs⟩
    rw [← hs]
    rfl
  · dsimp only
    rw [List.map_map]
    rfl
  · intro p hp
    dsimp only
    rw [List.map_map]
    show rowGet ((groupKeys blk.2).foldl (fun acc k =>
      upsert k ((blk.2.map (fun s => rowGet s.2.periods k 0)).sum) acc) []) p.key 0 =
      (blk.2.map (fun s => rowGet (sgRow s).vals p.key 0)).sum
    cases hsub : blk.2 with
    | nil => simp [groupKeys, rowGet, List.lookup]
    | cons s0 rest =>
      have hkeys : groupKeys (s0 :: rest) = s0.2.periods.map Prod.fst := rfl
      obtain ⟨r0, hr0⟩ := hinv s0 (by rw [hsub]; exact List.mem_cons_self _ _)
      have hpkey : p.key ∈ groupKeys (s0 :: rest) := by
        rw [hkeys, hr0]
        exact mem_keys_mkPeriods r0 plist
          (List.mem_map.mpr ⟨p, hp, rfl⟩)
      have hlk := lookup_foldl_upsert
        (fun k => ((s0 :: rest).map (fun s => rowGet s.2.periods k 0)).sum)
        (groupKeys (s0 :: rest)) [] p.key
      unfold rowGet
      unfold rowGet at hlk
      rw [hlk, if_pos hpkey]
      rfl

/-- A list of blocks never starts with an indent-1 row: `takeWhile` over it
is empty. -/
theorem takeWhile_flatMap_groupBlock (bs : List (String × List (String × SgData))) :
    (bs.flatMap groupBlock).takeWhile (fun r => r.indent == 1) = [] := by
  cases bs with
  | nil => rfl
  | cons b bs2 =>
    rw [List.flatMap_cons]
    show ((groupBlock b) ++ bs2.flatMap groupBlock).takeWhile
      (fun r => r.indent == 1) = []
    rw [show groupBlock b =
      ({ customer_group := b.1, custom_sub_group := "",
         vals := (groupKeys b.2).foldl (fun acc k =>
           upsert k ((b.2.map (fun s => rowGet s.2.periods k 0)).sum) acc) [],
         total := (b.2.map (fun s => s.2.total)).sum,
         indent := 0 } : DisplayRow) :: b.2.map sgRow from rfl]
    rw [List.cons_append, List.takeWhile_cons]
    simp

/-- Positional form of the group-row sum property over a block list. -/
theorem blocks_property (plist : List Bucket) :
    ∀ (blocks : List (String × List (String × SgData))),
      (∀ e ∈ blocks, ∀ se ∈ e.2,
        ∃ r : AggRow, se.2 = SgData.mk (mkPeriods r plist) r.total) →
      ∀ (pre post : List DisplayRow) (g : DisplayRow),
        blocks.flatMap groupBlock = pre ++ g :: post →
        g.indent = 0 →
        (g.total = ((post.takeWhile (fun r => r.indent == 1)).map
            (fun r => r.total)).sum ∧
         ∀ p ∈ plist,
           rowGet g.vals p.key 0 =
             ((post.takeWhile (fun r => r.indent == 1)).map
               (fun r => rowGet r.vals p.key 0)).sum) := by
  intro blocks
  induction blocks with
  | nil =>
    intro _ pre post g heq _
    rw [List.flatMap_nil] at heq
    exact absurd heq.symm (by simp)
  | cons blk bs ih =>
    intro hinv pre post g heq hg
    obtain ⟨g0, hblk, _, _, hg0i, hch, htot, hvals⟩ :=
      groupBlock_facts plist blk
        (fun se hse => hinv blk (List.mem_cons_self _ _) se hse)
    rw [List.flatMap_cons, hblk, List.cons_append] at heq
    cases pre with
    | nil =>
      rw [List.nil_append] at heq
      injection heq with h1 h2
      subst h1
      have htw : (post.takeWhile (fun r => r.indent == 1)) =
          blk.2.map sgRow := by
        rw [← h2, takeWhile_append_all _ _ _
          (fun x hx => by rw [hch x hx]; rfl),
          takeWhile_flatMap_groupBlock, List.append_nil]
      rw [htw]
      exact ⟨htot, hvals⟩
    | cons p0 pre2 =>
      rw [List.cons_append] at heq
      injection heq with h1 h2
      rcases List.append_eq_append_iff.mp h2 with ⟨a, ha1, ha2⟩ | ⟨c, hc1, hc2⟩
      · exact ih (fun e he => hinv e (List.mem_cons_of_mem _ he)) a post g
          ha2 hg
      · cases c with
        | nil =>
          rw [List.nil_append] at hc2
          exact ih (fun e he => hinv e (List.mem_cons_of_mem _ he)) [] post g
            (by rw [List.nil_append]; exact hc2.symm) hg
        | cons x c2 =>
          exfalso
          rw [List.cons_append] at hc2
          injection hc2 with hgx _
          have hxmem : x ∈ blk.2.map sgRow := by
            rw [hc1]
            exact List.mem_append_right _ (List.mem_cons_self _ _)
          have hx1 := hch x hxmem
          rw [← hgx, hg] at hx1
          exact absurd hx1 (by decide)

end SalesAnalytic

/-! ## Claims C2, C6, C10: the row shaper and the chart -/

/-- C2: in the output of `build_hierarchical_rows`, every group row
(indent 0) has total equal to the sum of the totals of the child rows
following it (indent 1, up to the next group row), and for every bucket
key its value is the sum of those children's values for that key. -/
theorem claim_C2 :
    ∀ (agg_rows : List SalesAnalytic.AggRow)
      (period_list : List SalesAnalytic.Bucket)
      (pre post : List SalesAnalytic.DisplayRow)
      (g : SalesAnalytic.DisplayRow),
      SalesAnalytic.build_hierarchical_rows agg_rows period_list =
        pre ++ g :: post →
      g.indent = 0 →
      (g.total = ((post.takeWhile (fun r => r.indent == 1)).map
          (fun r => r.total)).sum ∧
       ∀ p ∈ period_list,
         rowGet g.vals p.key 0 =
           ((post.takeWhile (fun r => r.indent == 1)).map
             (fun r => rowGet r.vals p.key 0)).sum) := by
  intro agg_rows period_list pre post g heq hg
  refine SalesAnalytic.blocks_property period_list
    (SalesAnalytic.buildNested agg_rows period_list) ?_ pre post g heq hg
  exact SalesAnalytic.buildNested_inv period_list agg_rows []
    (fun e he => absurd he (List.not_mem_nil e))

theorem claim_C2_witness :
    (SalesAnalytic.build_hierarchical_rows
        [⟨some "A", some "X", [("Jan_2025", 2)], 2⟩,
         ⟨some "A", some "Y", [("Jan_2025", 3)], 5⟩]
        [⟨"Jan_2025", "Jan 2025", ⟨2025, 1, 1⟩, ⟨2025, 1, 31⟩⟩] =
      [] ++ (⟨"A", "", [("Jan_2025", 5)], 7, 0⟩ : SalesAnalytic.DisplayRow) ::
        [⟨"", "X", [("Jan_2025", 2)], 2, 1⟩,
         ⟨"", "Y", [("Jan_2025", 3)], 5, 1⟩] ∧
      (⟨"A", "", [("Jan_2025", 5)], 7, 0⟩ :
        SalesAnalytic.DisplayRow).indent = 0) ∧
    ((⟨"A", "", [("Jan_2025", 5)], 7, 0⟩ :
        SalesAnalytic.DisplayRow).total =
      ((([⟨"", "X", [("Jan_2025", 2)], 2, 1⟩,
          ⟨"", "Y", [("Jan_2025", 3)], 5, 1⟩] :
            List SalesAnalytic.DisplayRow).takeWhile
          (fun r => r.indent == 1)).map (fun r => r.total)).sum ∧
     ∀ p ∈ [(⟨"Jan_2025", "Jan 2025", ⟨2025, 1, 1⟩, ⟨2025, 1, 31⟩⟩ :
         SalesAnalytic.Bucket)],
       rowGet (⟨"A", "", [("Jan_2025", 5)], 7, 0⟩ :
           SalesAnalytic.DisplayRow).vals p.key 0 =
         ((([⟨"", "X", [("Jan_2025", 2)], 2, 1⟩,
             ⟨"", "Y", [("Jan_2025", 3)], 5, 1⟩] :
               List SalesAnalytic.DisplayRow).takeWhile
             (fun r => r.indent == 1)).map
           (fun r => rowGet r.vals p.key 0)).sum) :=
  ⟨⟨by decide, rfl⟩,
   claim_C2
     [⟨some "A", some "X", [("Jan_2025", 2)], 2⟩,
      ⟨some "A", some "Y", [("Jan_2025", 3)], 5⟩]
     [⟨"Jan_2025", "Jan 2025", ⟨2025, 1, 1⟩, ⟨2025, 1, 31⟩⟩]
     [] [⟨"", "X", [("Jan_2025", 2)], 2, 1⟩,
         ⟨"", "Y", [("Jan_2025", 3)], 5, 1⟩]
     ⟨"A", "", [("Jan_2025", 5)], 7, 0⟩ (by decide) rfl⟩

namespace SalesAnalytic

/-- Summing one bucket column over all emitted rows counts every leaf value
twice: once in its own child row and once in its group row. -/
theorem chart_double_sum (plist : List Bucket) :
    ∀ blocks : List (String × List (String × SgData)),
      (∀ e ∈ blocks, ∀ se ∈ e.2,
        ∃ r : AggRow, se.2 = SgData.mk (mkPeriods r plist) r.total) →
      ∀ p ∈ plist,
        ((blocks.flatMap groupBlock).map
          (fun row => rowGet row.vals p.key 0)).sum =
        2 * (((blocks.flatMap groupBlock).filter
               (fun r => r.indent == 1)).map
               (fun r => rowGet r.vals p.key 0)).sum := by
  intro blocks
  induction blocks with
  | nil => intro _ p _; simp
  | cons blk bs ih =>
    intro hinv p hp
    obtain ⟨g0, hblk, _, _, hg0i, hch, htot, hvals⟩ :=
      groupBlock_facts plist blk
        (fun se hse => hinv blk (List.mem_cons_self _ _) se hse)
    rw [List.flatMap_cons, hblk, List.cons_append, List.map_cons,
      List.sum_cons, List.map_append, List.sum_append]
    have hfg0 : (g0.indent == 1) = false := by
      rw [hg0i]
      rfl
    rw [List.filter_cons_of_neg (by simp [hfg0]),
      List.filter_append,
      List.filter_eq_self.mpr (fun c hc => by rw [hch c hc]; rfl),
      List.map_append, List.sum_append, hvals p hp,
      ih (fun e he => hinv e (List.mem_cons_of_mem _ he)) p hp]
    ring

end SalesAnalytic

/-- C6: the chart labels are the bucket labels in bucket order, labels and
values both have one entry per bucket, each value is the sum of that
bucket's column over all emitted display rows — group rows and child rows
alike — and consequently, over the rows built by
`build_hierarchical_rows`, each bucket's chart value is twice the sum of
the child-row (leaf) values of that bucket. -/
theorem claim_C6 :
    (∀ (filters : SalesAnalytic.Filters) (columns : List SalesAnalytic.Column)
       (data : List SalesAnalytic.DisplayRow)
       (period_list : List SalesAnalytic.Bucket),
      (SalesAnalytic.get_chart_data filters columns data period_list).labels =
        period_list.map (fun p => p.label) ∧
      (SalesAnalytic.get_chart_data filters columns data period_list).values =
        period_list.map (fun p =>
          (data.map (fun row => rowGet row.vals p.key 0)).sum) ∧
      (SalesAnalytic.get_chart_data filters columns data
        period_list).labels.length = period_list.length ∧
      (SalesAnalytic.get_chart_data filters columns data
        period_list).values.length = period_list.length) ∧
    (∀ (agg_rows : List SalesAnalytic.AggRow)
       (period_list : List SalesAnalytic.Bucket),
      ∀ p ∈ period_list,
        (((SalesAnalytic.build_hierarchical_rows agg_rows period_list)).map
          (fun row => rowGet row.vals p.key 0)).sum =
        2 * (((SalesAnalytic.build_hierarchical_rows agg_rows
                period_list).filter (fun r => r.indent == 1)).map
               (fun r => rowGet r.vals p.key 0)).sum) := by
  constructor
  · intro filters columns data period_list
    refine ⟨rfl, ?_, ?_, ?_⟩
    · show (period_list.map (fun p => p.key)).map
        (fun col => (data.map (fun row => rowGet row.vals col 0)).sum) = _
      rw [List.map_map]
      rfl
    · show (period_list.map (fun p => p.label)).length = _
      rw [List.length_map]
    · show ((period_list.map (fun p => p.key)).map _).length = _
      rw [List.length_map, List.length_map]
  · intro agg_rows period_list p hp
    exact SalesAnalytic.chart_double_sum period_list
      (SalesAnalytic.buildNested agg_rows period_list)
      (SalesAnalytic.buildNested_inv period_list agg_rows []
        (fun e he => absurd he (List.not_mem_nil e)))
      p hp

theorem claim_C6_witness :
    ((⟨"Jan_2025", "Jan 2025", ⟨2025, 1, 1⟩, ⟨2025, 1, 31⟩⟩ :
        SalesAnalytic.Bucket) ∈
      [(⟨"Jan_2025", "Jan 2025", ⟨2025, 1, 1⟩, ⟨2025, 1, 31⟩⟩ :
        SalesAnalytic.Bucket)]) ∧
    (((SalesAnalytic.build_hierarchical_rows
        [⟨some "A", some "X", [("Jan_2025", 2)], 2⟩,
         ⟨some "A", some "Y", [("Jan_2025", 3)], 5⟩]
        [⟨"Jan_2025", "Jan 2025", ⟨2025, 1, 1⟩, ⟨2025, 1, 31⟩⟩]).map
      (fun row => rowGet row.vals
        (⟨"Jan_2025", "Jan 2025", ⟨2025, 1, 1⟩, ⟨2025, 1, 31⟩⟩ :
          SalesAnalytic.Bucket).key 0)).sum =
    2 * (((SalesAnalytic.build_hierarchical_rows
            [⟨some "A", some "X", [("Jan_2025", 2)], 2⟩,
             ⟨some "A", some "Y", [("Jan_2025", 3)], 5⟩]
            [⟨"Jan_2025", "Jan 2025", ⟨2025, 1, 1⟩, ⟨2025, 1, 31⟩⟩]).filter
           (fun r => r.indent == 1)).map
           (fun r => rowGet r.vals
             (⟨"Jan_2025", "Jan 2025", ⟨2025, 1, 1⟩, ⟨2025, 1, 31⟩⟩ :
               SalesAnalytic.Bucket).key 0)).sum) :=
  ⟨by decide,
   claim_C6.2
     [⟨some "A", some "X", [("Jan_2025", 2)], 2⟩,
      ⟨some "A", some "Y", [("Jan_2025", 3)], 5⟩]
     [⟨"Jan_2025", "Jan 2025", ⟨2025, 1, 1⟩, ⟨2025, 1, 31⟩⟩]
     ⟨"Jan_2025", "Jan 2025", ⟨2025, 1, 1⟩, ⟨2025, 1, 31⟩⟩ (by decide)⟩

/-- C10: falsy group and sub-group labels are replaced by the "Undefined"
and "(No Sub Group)" placeholders before nesting; two aggregate rows that
collide on the replaced (group, sub-group) pair produce exactly one child
row, carrying only the later row's period values and total, and the group
row sums only the later row's measures — the earlier row is dropped. -/
theorem claim_C10 :
    ∀ (r1 r2 : SalesAnalytic.AggRow) (plist : List SalesAnalytic.Bucket),
      strOrDefault r1.customer_group "Undefined" =
        strOrDefault r2.customer_group "Undefined" →
      strOrDefault r1.custom_sub_group "(No Sub Group)" =
        strOrDefault r2.custom_sub_group "(No Sub Group)" →
      ∃ g c : SalesAnalytic.DisplayRow,
        SalesAnalytic.build_hierarchical_rows [r1, r2] plist = [g, c] ∧
        g.indent = 0 ∧ c.indent = 1 ∧
        g.customer_group = strOrDefault r1.customer_group "Undefined" ∧
        c.custom_sub_group =
          strOrDefault r1.custom_sub_group "(No Sub Group)" ∧
        c.vals = SalesAnalytic.mkPeriods r2 plist ∧
        c.total = r2.total ∧
        g.total = r2.total ∧
        (∀ p ∈ plist, rowGet g.vals p.key 0 = rowGet r2.vals p.key 0) := by
  intro r1 r2 plist hcg hsg
  have hnested : SalesAnalytic.buildNested [r1, r2] plist =
      [(strOrDefault r1.customer_group "Undefined",
        [(strOrDefault r1.custom_sub_group "(No Sub Group)",
          ⟨SalesAnalytic.mkPeriods r2 plist, r2.total⟩)])] := by
    simp only [SalesAnalytic.buildNested, List.foldl_cons, List.foldl_nil,
      upsertWith, upsert]
    rw [if_pos hcg, if_pos hsg]
  obtain ⟨g0, hblk, hgcg, hgsub, hg0i, hch, htot, hvals⟩ :=
    SalesAnalytic.groupBlock_facts plist
      (strOrDefault r1.customer_group "Undefined",
       [(strOrDefault r1.custom_sub_group "(No Sub Group)",
         ⟨SalesAnalytic.mkPeriods r2 plist, r2.total⟩)])
      (fun se hse => by
        rcases List.mem_cons.mp hse with h | h
        · exact ⟨r2, by rw [h]⟩
        · exact absurd h (List.not_mem_nil se))
  have hout : SalesAnalytic.build_hierarchical_rows [r1, r2] plist =
      g0 :: [SalesAnalytic.sgRow
        (strOrDefault r1.custom_sub_group "(No Sub Group)",
         ⟨SalesAnalytic.mkPeriods r2 plist, r2.total⟩)] := by
    show (SalesAnalytic.buildNested [r1, r2] plist).flatMap
      SalesAnalytic.groupBlock = _
    rw [hnested, List.flatMap_cons, List.flatMap_nil, List.append_nil, hblk]
    rfl
  refine ⟨g0, SalesAnalytic.sgRow
    (strOrDefault r1.custom_sub_group "(No Sub Group)",
     ⟨SalesAnalytic.mkPeriods r2 plist, r2.total⟩),
    hout, hg0i, rfl, hgcg, rfl, rfl, rfl, ?_, ?_⟩
  · rw [htot]
    show r2.total + 0 = r2.total
    omega
  · intro p hp
    rw [hvals p hp]
    show rowGet (SalesAnalytic.mkPeriods r2 plist) p.key 0 + 0 = _
    unfold rowGet
    rw [SalesAnalytic.lookup_mkPeriods r2 plist
      (List.mem_map.mpr ⟨p, hp, rfl⟩)]
    simp [rowGet, Option.getD_some]

theorem claim_C10_witness :
    (strOrDefault (⟨some "A", none, [("Jan_2025", 2)], 2⟩ :
        SalesAnalytic.AggRow).customer_group "Undefined" =
      strOrDefault (⟨some "A", some "", [("Jan_2025", 3)], 5⟩ :
        SalesAnalytic.AggRow).customer_group "Undefined") ∧
    (strOrDefault (⟨some "A", none, [("Jan_2025", 2)], 2⟩ :
        SalesAnalytic.AggRow).custom_sub_group "(No Sub Group)" =
      strOrDefault (⟨some "A", some "", [("Jan_2025", 3)], 5⟩ :
        SalesAnalytic.AggRow).custom_sub_group "(No Sub Group)") ∧
    (∃ g c : SalesAnalytic.DisplayRow,
      SalesAnalytic.build_hierarchical_rows
        [⟨some "A", none, [("Jan_2025", 2)], 2⟩,
         ⟨some "A", some "", [("Jan_2025", 3)], 5⟩]
        [⟨"Jan_2025", "Jan 2025", ⟨2025, 1, 1⟩, ⟨2025, 1, 31⟩⟩] = [g, c] ∧
      g.indent = 0 ∧ c.indent = 1 ∧
      g.customer_group = strOrDefault (⟨some "A", none, [("Jan_2025", 2)], 2⟩ :
        SalesAnalytic.AggRow).customer_group "Undefined" ∧
      c.custom_sub_group = strOrDefault
        (⟨some "A", none, [("Jan_2025", 2)], 2⟩ :
          SalesAnalytic.AggRow).custom_sub_group "(No Sub Group)" ∧
      c.vals = SalesAnalytic.mkPeriods
        ⟨some "A", some "", [("Jan_2025", 3)], 5⟩
        [⟨"Jan_2025", "Jan 2025", ⟨2025, 1, 1⟩, ⟨2025, 1, 31⟩⟩] ∧
      c.total = (⟨some "A", some "", [("Jan_2025", 3)], 5⟩ :
        SalesAnalytic.AggRow).total ∧
      g.total = (⟨some "A", some "", [("Jan_2025", 3)], 5⟩ :
        SalesAnalytic.AggRow).total ∧
      (∀ p ∈ [(⟨"Jan_2025", "Jan 2025", ⟨2025, 1, 1⟩, ⟨2025, 1, 31⟩⟩ :
          SalesAnalytic.Bucket)],
        rowGet g.vals p.key 0 =
          rowGet (⟨some "A", some "", [("Jan_2025", 3)], 5⟩ :
            SalesAnalytic.AggRow).vals p.key 0)) :=
  ⟨rfl, rfl,
   claim_C10 ⟨some "A", none, [("Jan_2025", 2)], 2⟩
     ⟨some "A", some "", [("Jan_2025", 3)], 5⟩
     [⟨"Jan_2025", "Jan 2025", ⟨2025, 1, 1⟩, ⟨2025, 1, 31⟩⟩] rfl rfl⟩
